import Mathlib

/-!
Shallow embedding of the command-execution core of the nlp-inventory-hub
repository (supabase/functions/nlp-parser/index.ts): the entity resolvers
(findProduct, findProductExact, findSimilarProducts, findWarehouse,
findSupplier) and the mutation handlers of executeAction (TAKE_STOCK,
TRANSFER_STOCK, MOVE_PRODUCT, CREATE_ORDER, RECEIVE_ORDER,
UPDATE_ORDER_STATUS), together with theorems settling the frozen claims
about stock non-negativity, receipt conservation, transfer atomicity and
entity resolution.

Modelling conventions:
  - the supabase tables are lists of records inside a DB structure; the
    read/update/insert round trips of the handlers become explicit list
    reads and rebuilds, in the exact order the source performs them;
  - integer columns are Int (quantities may be any JSON number, the code
    never validates their sign); DECIMAL price columns are Rat;
  - a nullable value or a query that can return no row is Option;
  - JavaScript truthiness tests on parameters (if (params.x)) are made
    explicit: 0, the empty string and absence are falsy;
  - the ilike exact match of the source is case-insensitive string
    equality, the ilike %x% match is case-insensitive substring;
  - the currency-stripping parseFloat applied to params.unit_price is
    abstracted by passing the parse result: the field unit_price is
    Option (Option Rat), none = parameter absent or falsy, some none =
    present but not parseable, some (some q) = parses to q.
-/

namespace NlpInventory

/-- Row of the products table (pid, p_name, unit_price, quantity). -/
structure Product where
  pid : Nat
  p_name : String
  unit_price : Option Rat
  quantity : Int
deriving DecidableEq

/-- Row of the warehouses table. -/
structure Warehouse where
  w_id : Nat
  w_name : String
deriving DecidableEq

/-- Row of the suppliers table. -/
structure Supplier where
  sup_id : Nat
  s_name : String
deriving DecidableEq

/-- Row of the product_warehouse table: per (product, warehouse) stock. -/
structure StockRecord where
  pid : Nat
  w_id : Nat
  stock : Int
deriving DecidableEq

/-- Row of the transactions table (append-only audit log). -/
structure TransactionRecord where
  amt : Int
  ttype : String
  pid : Nat
  w_id : Nat
  target_w_id : Option Nat
  e_id : Option Nat
  description : String
deriving DecidableEq

/-- Row of the orders table. In this code base the quantity column is
decremented in place on receipt, so it holds the remaining quantity. -/
structure Order where
  po_id : Nat
  quantity : Int
  status : String
  p_id : Nat
  sup_id : Option Nat
  target_w_id : Nat
  price : Rat
  created_by : Option Nat
deriving DecidableEq

/-- The relational store. nextPid and nextPoId model the SERIAL key
generators of the products and orders tables. -/
structure DB where
  products : List Product
  warehouses : List Warehouse
  suppliers : List Supplier
  product_warehouse : List StockRecord
  orders : List Order
  transactions : List TransactionRecord
  nextPid : Nat
  nextPoId : Nat
deriving DecidableEq

/-- A loosely typed identifier parameter: the interpreter may supply a
numeric id or a text name. -/
inductive Ident where
  | num (n : Nat)
  | text (s : String)
deriving DecidableEq

/-- JavaScript truthiness of an identifier parameter: 0 and the empty
string are falsy. -/
def Ident.isFalsy : Ident → Bool
  | .num 0 => true
  | .text "" => true
  | _ => false

/-- Render an identifier the way a template literal would. -/
def Ident.render : Ident → String
  | .num n => toString n
  | .text s => s

/-- JS truthiness filter for an optional integer parameter (0 is falsy). -/
def jsTruthyInt : Option Int → Option Int
  | some 0 => none
  | x => x

/-- JS truthiness filter for an optional numeric id (0 is falsy). -/
def jsTruthyNat : Option Nat → Option Nat
  | some 0 => none
  | x => x

/-- JS truthiness filter for an optional string (the empty string is falsy). -/
def jsTruthyStr : Option String → Option String
  | some "" => none
  | x => x

/-- JS truthiness filter for an optional identifier parameter. -/
def identParam : Option Ident → Option Ident
  | some i => if i.isFalsy then none else some i
  | none => none

/-- ASCII lowercase of one character (the case folding the ilike matches
and toLowerCase calls rely on; the names in play are ASCII). -/
def lowerChar (c : Char) : Char :=
  if 65 ≤ c.toNat ∧ c.toNat ≤ 90 then Char.ofNat (c.toNat + 32) else c

/-- ASCII lowercase of a string. -/
def lowerStr (s : String) : String := String.mk (s.data.map lowerChar)

/-- Split a character list at spaces (String.prototype.split). -/
def splitChars (cur : List Char) : List Char → List (List Char)
  | [] => [cur.reverse]
  | c :: cs =>
    if c = ' ' then cur.reverse :: splitChars [] cs else splitChars (c :: cur) cs

/-- Split a string at spaces (String.prototype.split on whitespace). -/
def splitOnSpace (s : String) : List String := (splitChars [] s.data).map String.mk

/-- Case-insensitive string equality: the ilike match with no wildcard. -/
def lcEq (a b : String) : Bool := lowerStr a == lowerStr b

/-- Does the needle match the front of the hay, character by character. -/
def agreesAt : List Char → List Char → Bool
  | [], _ => true
  | _ :: _, [] => false
  | a :: as, b :: bs => a == b && agreesAt as bs

/-- Does the hay contain the needle as a contiguous run of characters. -/
def charsContain (needle : List Char) : List Char → Bool
  | [] => agreesAt needle []
  | b :: bs => agreesAt needle (b :: bs) || charsContain needle bs

/-- Case-insensitive substring test: the ilike %needle% match, and the
String.prototype.includes calls on lowercased strings. -/
def lcSubstr (needle hay : String) : Bool :=
  charsContain (lowerStr needle).data (lowerStr hay).data

/-- First whitespace-separated word of a string (s.split of the source). -/
def firstWord (s : String) : String := (splitOnSpace s).headD ""

/-- Join a list of strings with a separator (Array.prototype.join). -/
def joinSep (sep : String) : List String → String
  | [] => ""
  | [x] => x
  | x :: xs => x ++ sep ++ joinSep sep xs

/-- findProduct: numeric id is a primary-key lookup; text first tries the
case-insensitive exact name match, then falls back to the case-insensitive
substring match, first hit only. -/
def findProduct (db : DB) : Ident → Option Product
  | .num n => db.products.find? (fun p => p.pid == n)
  | .text s =>
    match db.products.find? (fun p => lcEq p.p_name s) with
    | some p => some p
    | none => db.products.find? (fun p => lcSubstr s p.p_name)

/-- findProductExact: numeric id is a primary-key lookup; text does only
the case-insensitive exact name match, with no substring fallback. -/
def findProductExact (db : DB) : Ident → Option Product
  | .num n => db.products.find? (fun p => p.pid == n)
  | .text s => db.products.find? (fun p => lcEq p.p_name s)

/-- findWarehouse: same two-stage contract as findProduct. -/
def findWarehouse (db : DB) : Ident → Option Warehouse
  | .num n => db.warehouses.find? (fun w => w.w_id == n)
  | .text s =>
    match db.warehouses.find? (fun w => lcEq w.w_name s) with
    | some w => some w
    | none => db.warehouses.find? (fun w => lcSubstr s w.w_name)

/-- findSupplier: a falsy identifier yields null; numeric id is a
primary-key lookup; text goes straight to the case-insensitive substring
match (there is no exact-name stage in the source). -/
def findSupplier (db : DB) (i : Ident) : Option Supplier :=
  if i.isFalsy then none
  else
    match i with
    | .num n => db.suppliers.find? (fun s => s.sup_id == n)
    | .text s => db.suppliers.find? (fun x => lcSubstr s x.s_name)

/-- findSimilarProducts: words of the query longer than 2 characters; a
candidate matches if some word is a substring of its name or the first
word of its name is a substring of that query word; capped at 5. -/
def findSimilarProducts (db : DB) (s : String) : List Product :=
  let searchTerm := lowerStr s
  let words := (splitOnSpace searchTerm).filter (fun w => 2 < w.length)
  (db.products.filter (fun p =>
    let name := lowerStr p.p_name
    words.any (fun w => lcSubstr w name || lcSubstr (firstWord name) w))).take 5

/-- Read the stock of a (product, warehouse) pair, none when no row. -/
def getStock (db : DB) (pid wid : Nat) : Option Int :=
  (db.product_warehouse.find? (fun r => r.pid == pid && r.w_id == wid)).map (fun r => r.stock)

/-- The update call on product_warehouse filtered by pid and w_id. -/
def setStock (db : DB) (pid wid : Nat) (v : Int) : DB :=
  { db with product_warehouse :=
      db.product_warehouse.map (fun r =>
        if r.pid == pid && r.w_id == wid then { r with stock := v } else r) }

/-- The insert call on product_warehouse. -/
def insertStock (db : DB) (pid wid : Nat) (v : Int) : DB :=
  { db with product_warehouse := db.product_warehouse ++ [⟨pid, wid, v⟩] }

/-- The read-then-update-or-insert pattern the source repeats at every
destination of a stock increment. -/
def upsertAddStock (db : DB) (pid wid : Nat) (amt : Int) : DB :=
  match getStock db pid wid with
  | some s => setStock db pid wid (s + amt)
  | none => insertStock db pid wid amt

/-- Append one row to the transactions table. -/
def addTransaction (db : DB) (t : TransactionRecord) : DB :=
  { db with transactions := db.transactions ++ [t] }

/-- The response envelope fields the modelled handlers populate. -/
structure ActionResult where
  success : Bool
  message : String
  requiresBillUpload : Option Bool := none
  orderId : Option Nat := none
  suggestedProducts : List Product := []
  pendingOrders : List Order := []
deriving DecidableEq

/-- Failure envelope with only a message. -/
def fail (msg : String) : ActionResult := { success := false, message := msg }

/-- Parameters of the TAKE_STOCK action. -/
structure TakeStockParams where
  product : Ident
  warehouse : Ident
  quantity : Int
deriving DecidableEq

/-- The TAKE_STOCK handler: resolve product and warehouse (naming the
missing one), read the stock row with .single, fail Insufficient stock
when the row is absent or below the requested quantity, else decrement
and append one take transaction. -/
def takeStock (db : DB) (employeeId : Option Nat) (p : TakeStockParams) :
    ActionResult × DB :=
  match findProduct db p.product, findWarehouse db p.warehouse with
  | none, _ => (fail "Could not find product", db)
  | some _, none => (fail "Could not find warehouse", db)
  | some product, some warehouse =>
    match getStock db product.pid warehouse.w_id with
    | none => (fail "Insufficient stock", db)
    | some s =>
      if s < p.quantity then (fail "Insufficient stock", db)
      else
        let db1 := setStock db product.pid warehouse.w_id (s - p.quantity)
        let db2 := addTransaction db1
          { amt := p.quantity, ttype := "take", pid := product.pid,
            w_id := warehouse.w_id, target_w_id := none, e_id := employeeId,
            description := "Took " ++ toString p.quantity ++ " units of " ++
              product.p_name ++ " from " ++ warehouse.w_name }
        ({ success := true,
           message := "Successfully took " ++ toString p.quantity ++
             " units of " ++ product.p_name ++ " from " ++ warehouse.w_name },
         db2)

/-- Parameters of the TRANSFER_STOCK action. -/
structure TransferStockParams where
  product : Ident
  from_warehouse : Ident
  to_warehouse : Ident
  quantity : Int
deriving DecidableEq

/-- The TRANSFER_STOCK handler: resolve the three entities, require
source stock at least the requested quantity, decrement the source,
upsert-increment the destination (the destination read happens after the
source update, as in the source), append one transfer transaction
carrying both warehouse ids. -/
def transferStock (db : DB) (employeeId : Option Nat) (p : TransferStockParams) :
    ActionResult × DB :=
  match findProduct db p.product, findWarehouse db p.from_warehouse,
        findWarehouse db p.to_warehouse with
  | some product, some fromW, some toW =>
    match getStock db product.pid fromW.w_id with
    | none => (fail "Insufficient stock at source warehouse", db)
    | some s =>
      if s < p.quantity then (fail "Insufficient stock at source warehouse", db)
      else
        let db1 := setStock db product.pid fromW.w_id (s - p.quantity)
        let db2 := upsertAddStock db1 product.pid toW.w_id p.quantity
        let db3 := addTransaction db2
          { amt := p.quantity, ttype := "transfer", pid := product.pid,
            w_id := fromW.w_id, target_w_id := some toW.w_id, e_id := employeeId,
            description := "Transferred " ++ toString p.quantity ++ " units of " ++
              product.p_name ++ " from " ++ fromW.w_name ++ " to " ++ toW.w_name }
        ({ success := true,
           message := "Transferred " ++ toString p.quantity ++ " units of " ++
             product.p_name ++ " from " ++ fromW.w_name ++ " to " ++ toW.w_name },
         db3)
  | _, _, _ => (fail "Could not find product or warehouse(s)", db)

/-- Parameters of the MOVE_PRODUCT action. -/
structure MoveProductParams where
  product : Ident
  to_warehouse : Ident
  quantity : Option Int
  from_warehouse : Option Ident
deriving DecidableEq

/-- Insert a stock row into a list sorted by stock descending, keeping
rows of equal stock in their original order. -/
def insertByStockDesc (r : StockRecord) : List StockRecord → List StockRecord
  | [] => [r]
  | x :: xs => if x.stock < r.stock then r :: x :: xs else x :: insertByStockDesc r xs

/-- Stable sort by stock descending: the order by stock descending of the
stock-location query. -/
def sortByStockDesc : List StockRecord → List StockRecord
  | [] => []
  | x :: xs => insertByStockDesc x (sortByStockDesc xs)

/-- The nonzero-stock location listing used in the failure message of
MOVE_PRODUCT when no location has sufficient stock. -/
def locationsMsg (db : DB) (locs : List StockRecord) : String :=
  let strs := locs.map (fun r =>
    (((db.warehouses.find? (fun w => w.w_id == r.w_id)).map
        (fun w => w.w_name)).getD "") ++
      " (" ++ toString r.stock ++ " units)")
  let j := joinSep ", " strs
  if j == "" then "nowhere" else j

/-- The MOVE_PRODUCT handler. Quantity defaults to 1 when absent or 0.
When from_warehouse is absent, the source is picked from the stock rows
of the product with stock at least the quantity, sorted by stock
descending, preferring the first row whose warehouse is not the
destination, else the first row. -/
def moveProduct (db : DB) (employeeId : Option Nat) (p : MoveProductParams) :
    ActionResult × DB :=
  match findProduct db p.product with
  | none => (fail ("Could not find product: " ++ p.product.render), db)
  | some product =>
    match findWarehouse db p.to_warehouse with
    | none =>
      (fail ("Could not find destination warehouse: " ++ p.to_warehouse.render), db)
    | some toW =>
      let quantity := (jsTruthyInt p.quantity).getD 1
      let fromW? : Option Warehouse :=
        match identParam p.from_warehouse with
        | some fi => findWarehouse db fi
        | none =>
          let stockLocations := sortByStockDesc
            (db.product_warehouse.filter
              (fun r => r.pid == product.pid && quantity ≤ r.stock))
          match stockLocations with
          | [] => none
          | l0 :: _ =>
            let location :=
              (stockLocations.find? (fun l => l.w_id != toW.w_id)).getD l0
            db.warehouses.find? (fun w => w.w_id == location.w_id)
      match fromW? with
      | none =>
        let locs := db.product_warehouse.filter
          (fun r => r.pid == product.pid && 0 < r.stock)
        (fail ("Could not find sufficient stock of " ++ product.p_name ++
          ". Current locations: " ++ locationsMsg db locs), db)
      | some fromW =>
        if fromW.w_id == toW.w_id then
          (fail ("Product is already in " ++ toW.w_name), db)
        else
          match getStock db product.pid fromW.w_id with
          | none =>
            (fail ("Insufficient stock at " ++ fromW.w_name ++ ". Available: 0"), db)
          | some s =>
            if s < quantity then
              (fail ("Insufficient stock at " ++ fromW.w_name ++
                ". Available: " ++ toString s), db)
            else
              let db1 := setStock db product.pid fromW.w_id (s - quantity)
              let db2 := upsertAddStock db1 product.pid toW.w_id quantity
              let db3 := addTransaction db2
                { amt := quantity, ttype := "transfer", pid := product.pid,
                  w_id := fromW.w_id, target_w_id := some toW.w_id,
                  e_id := employeeId,
                  description := "Moved " ++ toString quantity ++ " units of " ++
                    product.p_name ++ " from " ++ fromW.w_name ++ " to " ++ toW.w_name }
              ({ success := true,
                 message := "Moved " ++ toString quantity ++ " units of " ++
                   product.p_name ++ " from " ++ fromW.w_name ++ " to " ++ toW.w_name },
               db3)

/-- Parameters of the CREATE_ORDER action. The unit_price field carries
the result of the currency-stripping parseFloat of the source: none when
absent or falsy, some none when present but not parseable, some (some q)
when it parses to q. -/
structure CreateOrderParams where
  product : String
  quantity : Int
  warehouse : Option Ident
  supplier : Option Ident
  unit_price : Option (Option Rat)
deriving DecidableEq

/-- The parsed unit price of CREATE_ORDER (null unless present and
parseable). -/
def parsedUnitPrice : Option (Option Rat) → Option Rat
  | none => none
  | some x => x

/-- Supplier resolution step of CREATE_ORDER: none means the handler
fails (supplier given but unresolvable); some none means no supplier;
some (some s) is the resolved supplier. -/
def resolveSupplierParam (db : DB) (sp : Option Ident) : Option (Option Supplier) :=
  match identParam sp with
  | none => some none
  | some si =>
    match findSupplier db si with
    | none => none
    | some s => some (some s)

/-- The shared tail of CREATE_ORDER once a product row exists: compute
the total price, update the stored unit price when a parsed price was
given and differs, insert the pending order, signal requiresBillUpload. -/
def createOrderFinish (db : DB) (employeeId : Option Nat) (quantity : Int)
    (warehouse : Warehouse) (supplier : Option Supplier) (product : Product)
    (unitPrice : Option Rat) : ActionResult × DB :=
  let finalUnitPrice : Rat :=
    match unitPrice with
    | some up => up
    | none => product.unit_price.getD 0
  let totalPrice := finalUnitPrice * (quantity : Rat)
  let db1 :=
    match unitPrice with
    | some up =>
      if product.unit_price ≠ some up then
        { db with products := db.products.map (fun pr : Product =>
            if pr.pid == product.pid then { pr with unit_price := some up } else pr) }
      else db
    | none => db
  let newOrder : Order :=
    { po_id := db1.nextPoId, quantity := quantity, status := "pending",
      p_id := product.pid, sup_id := supplier.map (fun s => s.sup_id),
      target_w_id := warehouse.w_id, price := totalPrice,
      created_by := employeeId }
  let db2 := { db1 with
               orders := db1.orders ++ [newOrder],
               nextPoId := db1.nextPoId + 1 }
  ({ success := true,
     message := "Created purchase order #" ++ toString newOrder.po_id ++
       " for " ++ toString quantity ++ "x " ++ product.p_name,
     requiresBillUpload := some true, orderId := some newOrder.po_id }, db2)

/-- The CREATE_ORDER handler: warehouse mandatory and must resolve;
supplier optional but must resolve when given; product resolution is
strict-exact; on a miss, similar products become suggestions, else the
product is auto-created when a parseable unit price was given, else the
call fails. -/
def createOrder (db : DB) (employeeId : Option Nat) (p : CreateOrderParams) :
    ActionResult × DB :=
  match identParam p.warehouse with
  | none =>
    (fail "Please specify the target warehouse (where the order should go TO).", db)
  | some wi =>
    match findWarehouse db wi with
    | none => (fail ("Could not find warehouse: " ++ wi.render ++
        ". Please add the warehouse first or check the name."), db)
    | some warehouse =>
      match resolveSupplierParam db p.supplier with
      | none => (fail ("Could not find supplier: " ++
          (((identParam p.supplier).map Ident.render).getD "") ++
          ". Please add the supplier first or check the name."), db)
      | some supplier =>
        let unitPrice := parsedUnitPrice p.unit_price
        match findProductExact db (.text p.product) with
        | some product =>
          createOrderFinish db employeeId p.quantity warehouse supplier product unitPrice
        | none =>
          match findSimilarProducts db p.product with
          | sp :: sps =>
            ({ success := false,
               message := "Product \x22" ++ p.product ++
                 "\x22 not found. Did you mean one of these?",
               suggestedProducts := sp :: sps }, db)
          | [] =>
            match unitPrice with
            | some up =>
              let newProduct : Product :=
                { pid := db.nextPid, p_name := p.product,
                  unit_price := some up, quantity := 0 }
              let db1 := { db with
                           products := db.products ++ [newProduct],
                           nextPid := db.nextPid + 1 }
              createOrderFinish db1 employeeId p.quantity warehouse supplier
                newProduct unitPrice
            | none =>
              (fail ("Product \x22" ++ p.product ++
                "\x22 does not exist. Would you like to add it?"), db)

/-- Parameters of the RECEIVE_ORDER action. -/
structure ReceiveOrderParams where
  order_id : Option Nat
  product : Option String
  warehouse : Option Ident
  quantity : Option Int
deriving DecidableEq

/-- The statuses an order can be received from. -/
def openStatuses : List String := ["pending", "approved", "ordered", "shipped", "partial"]

/-- Joined product name of an order (empty when the product row is gone). -/
def orderProductName (db : DB) (o : Order) : String :=
  (((db.products.find? (fun pr => pr.pid == o.p_id)).map
    (fun pr => pr.p_name)).getD "")

/-- The product filter of the order matchers: the lowercased name of the
order product contains the search, or the search contains the first word
of that name. -/
def orderProductMatches (db : DB) (o : Order) (search : String) : Bool :=
  let productName := lowerStr (orderProductName db o)
  let productSearch := lowerStr search
  lcSubstr productSearch productName || lcSubstr (firstWord productName) productSearch

/-- The order-matching phase of RECEIVE_ORDER. With an order id: exact
lookup restricted to open statuses. Without: start from the open orders;
the product filter populates the match set; the warehouse filter applies
only when the set is nonempty (and only when the warehouse resolves); the
quantity filter keeps exact quantity matches when any exist; when the set
is empty and neither product nor warehouse was given, fall back to all
open orders. -/
def matchReceiveOrders (db : DB) (p : ReceiveOrderParams) : List Order :=
  match jsTruthyNat p.order_id with
  | some oid =>
    match db.orders.find? (fun o =>
        o.po_id == oid && openStatuses.contains o.status) with
    | some o => [o]
    | none => []
  | none =>
    let orders := db.orders.filter (fun o => openStatuses.contains o.status)
    if orders.length == 0 then []
    else
      let m1 :=
        match jsTruthyStr p.product with
        | some ps => orders.filter (fun o => orderProductMatches db o ps)
        | none => []
      let m2 :=
        match identParam p.warehouse with
        | some wi =>
          if 0 < m1.length then
            match findWarehouse db wi with
            | some w => m1.filter (fun o => o.target_w_id == w.w_id)
            | none => m1
          else m1
        | none => m1
      let m3 :=
        match jsTruthyInt p.quantity with
        | some q =>
          if 0 < m2.length then
            let ex := m2.filter (fun o => o.quantity == q)
            if 0 < ex.length then ex else m2
          else m2
        | none => m2
      if m3.length == 0 && (jsTruthyStr p.product).isNone &&
          (identParam p.warehouse).isNone then orders
      else m3

/-- The no-match failure message of RECEIVE_ORDER, naming the filters
that were tried. -/
def receiveNoMatchMsg (p : ReceiveOrderParams) : String :=
  "No pending orders found" ++
    (match jsTruthyStr p.product with
     | some ps => " for \x22" ++ ps ++ "\x22"
     | none => "") ++
    (match identParam p.warehouse with
     | some wi => " to " ++ wi.render
     | none => "") ++
    ". Use \x22show orders\x22 to see all orders."

/-- The RECEIVE_ORDER handler: match orders; fail on zero matches naming
the filters tried; on several matches fail with at most 5 candidates; on
exactly one, receive the provided quantity (or the full remaining
quantity when absent or 0), rejecting amounts above the remaining
quantity, then update the order status and remaining quantity, upsert
stock into the target warehouse, add the received amount to the product
total, and append one receive transaction. -/
def receiveOrder (db : DB) (employeeId : Option Nat) (p : ReceiveOrderParams) :
    ActionResult × DB :=
  match matchReceiveOrders db p with
  | [] => (fail (receiveNoMatchMsg p), db)
  | [order] =>
    let orderQuantity := order.quantity
    let receivedQuantity := (jsTruthyInt p.quantity).getD orderQuantity
    if orderQuantity < receivedQuantity then
      (fail ("Cannot receive " ++ toString receivedQuantity ++
        " units. Order #" ++ toString order.po_id ++ " only has " ++
        toString orderQuantity ++ " units remaining."), db)
    else
      let remainingQuantity := orderQuantity - receivedQuantity
      let newStatus := if 0 < remainingQuantity then "partial" else "received"
      let db1 := { db with orders := db.orders.map (fun o =>
          if o.po_id == order.po_id then
            { o with status := newStatus, quantity := remainingQuantity }
          else o) }
      let db2 := upsertAddStock db1 order.p_id order.target_w_id receivedQuantity
      let currentProductQty :=
        (((db2.products.find? (fun pr => pr.pid == order.p_id)).map
          (fun pr => pr.quantity)).getD 0)
      let db3 := { db2 with products := db2.products.map (fun pr =>
          if pr.pid == order.p_id then
            { pr with quantity := currentProductQty + receivedQuantity }
          else pr) }
      let db4 := addTransaction db3
        { amt := receivedQuantity, ttype := "receive", pid := order.p_id,
          w_id := order.target_w_id, target_w_id := none, e_id := employeeId,
          description := "Received " ++ toString receivedQuantity ++
            " units from order #" ++ toString order.po_id }
      ({ success := true,
         message := if 0 < remainingQuantity then
             "Partially received " ++ toString receivedQuantity ++ " of " ++
               toString orderQuantity ++ " units. Order #" ++
               toString order.po_id ++ " has " ++ toString remainingQuantity ++
               " units remaining."
           else
             "Order #" ++ toString order.po_id ++ " fully received.",
         requiresBillUpload := some false, orderId := some order.po_id }, db4)
  | matching =>
    ({ success := false,
       message := "Multiple orders found. Please specify which one:",
       pendingOrders := matching.take 5 }, db)

/-- Parameters of the UPDATE_ORDER_STATUS action. -/
structure UpdateOrderStatusParams where
  order_id : Option Nat
  product : Option String
  status : String
deriving DecidableEq

/-- Outcome of the order lookup of UPDATE_ORDER_STATUS. -/
inductive StatusOrderLookup where
  | found (o : Order)
  | ambiguous (candidates : List Order)
  | notFound
deriving DecidableEq

/-- The order lookup of UPDATE_ORDER_STATUS: by id (no status filter),
else by product-name match over orders in pending, approved, ordered,
shipped; one match proceeds, several are ambiguous, zero is not found. -/
def lookupStatusOrder (db : DB) (p : UpdateOrderStatusParams) : StatusOrderLookup :=
  match jsTruthyNat p.order_id with
  | some oid =>
    match db.orders.find? (fun o => o.po_id == oid) with
    | some o => .found o
    | none => .notFound
  | none =>
    match jsTruthyStr p.product with
    | some ps =>
      let orders := db.orders.filter (fun o =>
        ["pending", "approved", "ordered", "shipped"].contains o.status)
      if orders.length == 0 then .notFound
      else
        match orders.filter (fun o => orderProductMatches db o ps) with
        | [o] => .found o
        | [] => .notFound
        | ms => .ambiguous ms
    | none => .notFound

/-- The per-status confirmation messages of UPDATE_ORDER_STATUS. -/
def statusMessage (o : Order) (pname status : String) : String :=
  if status == "cancelled" then
    "Order #" ++ toString o.po_id ++ " for " ++ pname ++ " has been cancelled."
  else if status == "approved" then
    "Order #" ++ toString o.po_id ++ " for " ++ pname ++ " has been approved."
  else if status == "shipped" then
    "Order #" ++ toString o.po_id ++ " for " ++ pname ++ " marked as shipped."
  else if status == "pending" then
    "Order #" ++ toString o.po_id ++ " for " ++ pname ++ " set back to pending."
  else if status == "ordered" then
    "Order #" ++ toString o.po_id ++ " for " ++ pname ++ " marked as ordered."
  else
    "Updated order #" ++ toString o.po_id ++ " status to " ++ status

/-- The UPDATE_ORDER_STATUS handler. For status reordered: insert a new
pending order cloning quantity, product, supplier, warehouse and price of
the original, then flip the original to reordered. For any other status:
a direct field update. -/
def updateOrderStatus (db : DB) (employeeId : Option Nat)
    (p : UpdateOrderStatusParams) : ActionResult × DB :=
  match lookupStatusOrder db p with
  | .ambiguous _ =>
    (fail ("Multiple orders found for \x22" ++
      ((jsTruthyStr p.product).getD "") ++ "\x22. Please specify which one:"), db)
  | .notFound => (fail "Could not find order", db)
  | .found order =>
    if p.status == "reordered" then
      let newOrder : Order :=
        { po_id := db.nextPoId, quantity := order.quantity, status := "pending",
          p_id := order.p_id, sup_id := order.sup_id,
          target_w_id := order.target_w_id, price := order.price,
          created_by := employeeId }
      let db1 := { db with
                   orders := db.orders ++ [newOrder],
                   nextPoId := db.nextPoId + 1 }
      let db2 := { db1 with orders := db1.orders.map (fun o =>
          if o.po_id == order.po_id then { o with status := "reordered" } else o) }
      ({ success := true,
         message := "Reordered! Created new order #" ++ toString newOrder.po_id ++
           ". Original order #" ++ toString order.po_id ++ " marked as reordered.",
         requiresBillUpload := some true, orderId := some newOrder.po_id }, db2)
    else
      let db1 := { db with orders := db.orders.map (fun o =>
          if o.po_id == order.po_id then { o with status := p.status } else o) }
      ({ success := true,
         message := statusMessage order (orderProductName db order) p.status,
         requiresBillUpload := some false, orderId := some order.po_id }, db1)

/-! Invariants of the store and sequences of stock operations. -/

/-- Every stock row is non-negative. -/
def stockNonneg (db : DB) : Prop := ∀ r ∈ db.product_warehouse, 0 ≤ r.stock

instance (db : DB) : Decidable (stockNonneg db) := by
  unfold stockNonneg; infer_instance

/-- The stock table has no duplicate (product, warehouse) key. -/
def stockKeyUniq (db : DB) : Prop :=
  db.product_warehouse.Pairwise (fun a b => a.pid ≠ b.pid ∨ a.w_id ≠ b.w_id)

instance (db : DB) : Decidable (stockKeyUniq db) := by
  unfold stockKeyUniq; infer_instance

/-- The orders table has no duplicate po_id. -/
def poIdUniq (db : DB) : Prop :=
  db.orders.Pairwise (fun a b => a.po_id ≠ b.po_id)

instance (db : DB) : Decidable (poIdUniq db) := by
  unfold poIdUniq; infer_instance

/-- Every existing po_id is below the next generated one (the SERIAL
key of the orders table). -/
def poFresh (db : DB) : Prop := ∀ o ∈ db.orders, o.po_id < db.nextPoId

instance (db : DB) : Decidable (poFresh db) := by
  unfold poFresh; infer_instance

/-- Every order row has a non-negative (remaining) quantity and is in
status received exactly when that quantity is zero. -/
def ordersInv (db : DB) : Prop :=
  ∀ o ∈ db.orders, 0 ≤ o.quantity ∧ (o.status = "received" ↔ o.quantity = 0)

instance (db : DB) : Decidable (ordersInv db) := by
  unfold ordersInv; infer_instance

/-- Sum of the amounts of a transaction list. -/
def amtSum (l : List TransactionRecord) : Int := (l.map (fun t => t.amt)).sum

/-- Run a sequence of RECEIVE_ORDER calls that target one order id,
each with its own optional quantity, keeping the final state. -/
def receiveSeq (db : DB) (e : Option Nat) (oid : Nat) (qs : List (Option Int)) : DB :=
  qs.foldl (fun d q => (receiveOrder d e ⟨some oid, none, none, q⟩).2) db

/-- A TAKE_STOCK or TRANSFER_STOCK request. -/
inductive StockOp where
  | take (p : TakeStockParams)
  | transfer (p : TransferStockParams)
deriving DecidableEq

/-- Dispatch one stock operation. -/
def applyStockOp (db : DB) (e : Option Nat) : StockOp → ActionResult × DB
  | .take p => takeStock db e p
  | .transfer p => transferStock db e p

/-- Run a sequence of stock operations, keeping the final state. -/
def applyStockOps (db : DB) (e : Option Nat) (ops : List StockOp) : DB :=
  ops.foldl (fun d op => (applyStockOp d e op).2) db

/-- The requested quantity of a transfer is non-negative (a take needs no
such restriction). -/
def opQuantityOk : StockOp → Prop
  | .take _ => True
  | .transfer p => 0 ≤ p.quantity

instance (op : StockOp) : Decidable (opQuantityOk op) := by
  cases op <;> { unfold opQuantityOk; infer_instance }

/-! Concrete stores and parameters used by counterexamples and witnesses. -/

/-- A small store: one product with 5 units in warehouse 1, a second
warehouse, and one pending order for 5 units. -/
def dbA : DB :=
  { products := [⟨1, "widget", some 5, 0⟩],
    warehouses := [⟨1, "main"⟩, ⟨2, "east"⟩],
    suppliers := [],
    product_warehouse := [⟨1, 1, 5⟩],
    orders := [⟨1, 5, "pending", 1, none, 1, 25, none⟩],
    transactions := [],
    nextPid := 2, nextPoId := 2 }

/-- A transfer request with a negative quantity, as the untrusted
interpreter may produce: 3 units from warehouse 1 to warehouse 2,
negated. -/
def trNeg : TransferStockParams := ⟨.num 1, .num 1, .num 2, -3⟩

/-- A benign operation sequence: take 2, then transfer 3. -/
def opsA : List StockOp :=
  [.take ⟨.num 1, .num 1, 2⟩, .transfer ⟨.num 1, .num 1, .num 2, 3⟩]

/-- Transfer 3 units of product 1 from warehouse 1 to warehouse 2. -/
def trPos : TransferStockParams := ⟨.num 1, .num 1, .num 2, 3⟩

/-- Take 5 units of product 1 from warehouse 1. -/
def tkFive : TakeStockParams := ⟨.num 1, .num 1, 5⟩

/-- Take 20 units of product 1 from warehouse 1 (more than on hand). -/
def tkTwenty : TakeStockParams := ⟨.num 1, .num 1, 20⟩

/-- A store whose supplier table holds a name that strictly contains a
second, shorter name: ABC is listed before AB. -/
def dbSup : DB :=
  { products := [⟨1, "widget", some 5, 0⟩],
    warehouses := [⟨1, "main"⟩],
    suppliers := [⟨1, "ABC"⟩, ⟨2, "AB"⟩],
    product_warehouse := [],
    orders := [],
    transactions := [],
    nextPid := 2, nextPoId := 1 }

/-- A CREATE_ORDER request for zero units of the existing product
widget, into warehouse 1, with no explicit price. -/
def coZero : CreateOrderParams := ⟨"widget", 0, some (.num 1), none, none⟩

/-- A store where bolts exist only at west (8 units); east is empty. -/
def dbB : DB :=
  { products := [⟨1, "bolt", some 2, 0⟩],
    warehouses := [⟨1, "west"⟩, ⟨2, "east"⟩],
    suppliers := [],
    product_warehouse := [⟨1, 1, 8⟩],
    orders := [], transactions := [],
    nextPid := 2, nextPoId := 1 }

/-- Move bolts to east with no source and no quantity. -/
def mvB : MoveProductParams := ⟨.text "bolt", .text "east", none, none⟩

/-! Generic list lemmas used by the proofs. -/

theorem find?_append_eq {α : Type} (l₁ l₂ : List α) (p : α → Bool) :
    (l₁ ++ l₂).find? p =
      match l₁.find? p with
      | some a => some a
      | none => l₂.find? p := by
  induction l₁ with
  | nil => simp
  | cons a t ih =>
    by_cases h : p a
    · simp [List.find?_cons, h]
    · simp only [List.cons_append, List.find?_cons, h]
      simpa [h] using ih

theorem find?_and_of_find? {α : Type} (l : List α) (p q : α → Bool) (a : α)
    (h : l.find? p = some a) (hq : q a = true) :
    l.find? (fun x => p x && q x) = some a := by
  induction l with
  | nil => simp at h
  | cons b t ih =>
    by_cases hb : p b
    · have hba : b = a := by simpa [List.find?_cons, hb] using h
      subst hba
      simp [List.find?_cons, hb, hq]
    · simp only [List.find?_cons, hb] at h
      simp only [List.find?_cons, hb, Bool.false_and]
      simpa [hb] using ih h

theorem find?_key_of_mem {α : Type} (k : α → Nat) (l : List α) (a : α)
    (hu : l.Pairwise (fun x y => k x ≠ k y)) (ha : a ∈ l) :
    l.find? (fun x => k x == k a) = some a := by
  induction l with
  | nil => simp at ha
  | cons b t ih =>
    rcases List.pairwise_cons.mp hu with ⟨hb, ht⟩
    rcases List.mem_cons.mp ha with rfl | hat
    · simp [List.find?_cons]
    · have hne : k b ≠ k a := hb a hat
      have : (k b == k a) = false := by simpa using hne
      simp only [List.find?_cons, this]
      exact ih ht hat

theorem find?_key_and_none {α : Type} (k : α → Nat) (l : List α) (a : α)
    (q : α → Bool) (hu : l.Pairwise (fun x y => k x ≠ k y)) (ha : a ∈ l)
    (hq : q a = false) :
    l.find? (fun x => (k x == k a) && q x) = none := by
  induction l with
  | nil => simp
  | cons b t ih =>
    rcases List.pairwise_cons.mp hu with ⟨hb, ht⟩
    rcases List.mem_cons.mp ha with rfl | hat
    · have hhead : ((k a == k a) && q a) = false := by simp [hq]
      simp only [List.find?_cons, hhead]
      rw [List.find?_eq_none]
      intro x hx
      have hxa : (k x == k a) = false := by
        have : k a ≠ k x := hb x hx
        simp only [beq_eq_false_iff_ne, ne_eq]
        exact fun h => this h.symm
      simp [hxa]
    · have hne : k b ≠ k a := hb a hat
      have hhead : ((k b == k a) && q b) = false := by simp [hne]
      simp only [List.find?_cons, hhead]
      exact ih ht hat

theorem find?_map_comm {α : Type} (l : List α) (g : α → α) (p : α → Bool)
    (hp : ∀ x, p (g x) = p x) :
    (l.map g).find? p = (l.find? p).map g := by
  induction l with
  | nil => simp
  | cons b t ih =>
    by_cases hb : p b
    · simp [List.find?_cons, hp, hb]
    · simp only [List.map_cons, List.find?_cons, hp, hb]
      simpa [hb] using ih

theorem find?_some_split {α : Type} (p : α → Bool) (l : List α) (a : α)
    (h : l.find? p = some a) :
    ∃ l₁ l₂, l = l₁ ++ a :: l₂ ∧ (∀ x ∈ l₁, p x = false) ∧ p a = true := by
  induction l with
  | nil => simp at h
  | cons b t ih =>
    by_cases hb : p b
    · have hba : b = a := by simpa [List.find?_cons, hb] using h
      subst hba
      exact ⟨[], t, by simp, by simp, hb⟩
    · simp only [List.find?_cons, hb] at h
      rcases ih (by simpa [hb] using h) with ⟨l₁, l₂, rfl, hl₁, hpa⟩
      exact ⟨b :: l₁, l₂, by simp, by
        intro x hx
        rcases List.mem_cons.mp hx with rfl | hx
        · simpa using hb
        · exact hl₁ x hx, hpa⟩

/-! Lemmas about the stock-access primitives. -/

theorem getStock_setStock (db : DB) (pid wid pid' wid' : Nat) (v : Int) :
    getStock (setStock db pid wid v) pid' wid' =
      if pid' = pid ∧ wid' = wid then (getStock db pid' wid').map (fun _ => v)
      else getStock db pid' wid' := by
  unfold getStock setStock
  simp only
  rw [find?_map_comm]
  · cases hf : db.product_warehouse.find? (fun r => r.pid == pid' && r.w_id == wid') with
    | none => simp
    | some r =>
      have hr := List.find?_some hf
      have hrp : r.pid = pid' := by simpa using (Bool.and_elim_left hr)
      have hrw : r.w_id = wid' := by simpa using (Bool.and_elim_right hr)
      by_cases hsame : pid' = pid ∧ wid' = wid
      · rcases hsame with ⟨rfl, rfl⟩
        simp [hrp, hrw]
      · have : (r.pid == pid && r.w_id == wid) = false := by
          rcases not_and_or.mp hsame with hne | hne
          · simp only [Bool.and_eq_false_iff]
            left
            simpa [hrp] using hne
          · simp only [Bool.and_eq_false_iff]
            right
            simpa [hrw] using hne
        simp only [hsame, if_false]
        simp [this, hrp, hrw, hsame]
  · intro x
    by_cases hx : (x.pid == pid && x.w_id == wid)
    · have hxp : x.pid = pid := by simpa using (Bool.and_elim_left hx)
      have hxw : x.w_id = wid := by simpa using (Bool.and_elim_right hx)
      simp [hx]
    · simp [hx]

theorem getStock_insertStock (db : DB) (pid wid pid' wid' : Nat) (v : Int) :
    getStock (insertStock db pid wid v) pid' wid' =
      match getStock db pid' wid' with
      | some s => some s
      | none => if pid = pid' ∧ wid = wid' then some v else none := by
  unfold getStock insertStock
  simp only
  rw [find?_append_eq]
  cases hf : db.product_warehouse.find? (fun r => r.pid == pid' && r.w_id == wid') with
  | some r => simp
  | none =>
    by_cases hsame : pid = pid' ∧ wid = wid'
    · rcases hsame with ⟨rfl, rfl⟩
      simp [List.find?_cons]
    · have : ((pid == pid') && (wid == wid')) = false := by
        rcases not_and_or.mp hsame with hne | hne <;> simp [hne]
      simp only [List.find?_cons]
      simp [this, hsame]

theorem getStock_upsertAdd (db : DB) (pid wid pid' wid' : Nat) (amt : Int) :
    getStock (upsertAddStock db pid wid amt) pid' wid' =
      if pid' = pid ∧ wid' = wid then some ((getStock db pid wid).getD 0 + amt)
      else getStock db pid' wid' := by
  unfold upsertAddStock
  cases hs : getStock db pid wid with
  | some s =>
    rw [getStock_setStock]
    by_cases hsame : pid' = pid ∧ wid' = wid
    · rcases hsame with ⟨rfl, rfl⟩
      simp [hs]
    · simp [hsame]
  | none =>
    rw [getStock_insertStock]
    by_cases hsame : pid' = pid ∧ wid' = wid
    · rcases hsame with ⟨rfl, rfl⟩
      simp [hs]
    · have hsame' : ¬ (pid = pid' ∧ wid = wid') := fun ⟨h1, h2⟩ =>
        hsame ⟨h1.symm, h2.symm⟩
      cases hf : getStock db pid' wid' with
      | some s => simp [hsame]
      | none => simp [hsame, hsame']

theorem stockNonneg_setStock (db : DB) (pid wid : Nat) (v : Int)
    (h : stockNonneg db) (hv : 0 ≤ v) : stockNonneg (setStock db pid wid v) := by
  intro r hr
  simp only [setStock, List.mem_map] at hr
  rcases hr with ⟨a, ha, rfl⟩
  by_cases hc : (a.pid == pid && a.w_id == wid)
  · simpa [hc] using hv
  · simpa [hc] using h a ha

theorem stockNonneg_insertStock (db : DB) (pid wid : Nat) (v : Int)
    (h : stockNonneg db) (hv : 0 ≤ v) : stockNonneg (insertStock db pid wid v) := by
  intro r hr
  simp only [insertStock, List.mem_append, List.mem_singleton] at hr
  rcases hr with ha | rfl
  · exact h r ha
  · exact hv

theorem stockNonneg_upsertAdd (db : DB) (pid wid : Nat) (amt : Int)
    (h : stockNonneg db) (hamt : 0 ≤ amt) :
    stockNonneg (upsertAddStock db pid wid amt) := by
  unfold upsertAddStock
  cases hs : getStock db pid wid with
  | none => exact stockNonneg_insertStock db pid wid amt h hamt
  | some s =>
    have hsmem : ∃ r ∈ db.product_warehouse, r.stock = s := by
      unfold getStock at hs
      cases hf : db.product_warehouse.find? (fun r => r.pid == pid && r.w_id == wid) with
      | none => simp [hf] at hs
      | some r =>
        refine ⟨r, List.mem_of_find?_eq_some hf, ?_⟩
        simpa [hf] using hs
    rcases hsmem with ⟨r, hrmem, rfl⟩
    exact stockNonneg_setStock db pid wid _ h
      (add_nonneg (h r hrmem) hamt)

theorem stockNonneg_addTransaction (db : DB) (t : TransactionRecord)
    (h : stockNonneg db) : stockNonneg (addTransaction db t) := by
  intro r hr
  exact h r (by simpa [addTransaction] using hr)

/-! Unchanged-table lemmas for the stock primitives. -/

theorem setStock_transactions (db : DB) (pid wid : Nat) (v : Int) :
    (setStock db pid wid v).transactions = db.transactions := rfl

theorem setStock_orders (db : DB) (pid wid : Nat) (v : Int) :
    (setStock db pid wid v).orders = db.orders := rfl

theorem setStock_products (db : DB) (pid wid : Nat) (v : Int) :
    (setStock db pid wid v).products = db.products := rfl

theorem insertStock_transactions (db : DB) (pid wid : Nat) (v : Int) :
    (insertStock db pid wid v).transactions = db.transactions := rfl

theorem insertStock_orders (db : DB) (pid wid : Nat) (v : Int) :
    (insertStock db pid wid v).orders = db.orders := rfl

theorem insertStock_products (db : DB) (pid wid : Nat) (v : Int) :
    (insertStock db pid wid v).products = db.products := rfl

theorem upsertAdd_transactions (db : DB) (pid wid : Nat) (amt : Int) :
    (upsertAddStock db pid wid amt).transactions = db.transactions := by
  unfold upsertAddStock
  cases getStock db pid wid <;> rfl

theorem upsertAdd_orders (db : DB) (pid wid : Nat) (amt : Int) :
    (upsertAddStock db pid wid amt).orders = db.orders := by
  unfold upsertAddStock
  cases getStock db pid wid <;> rfl

theorem upsertAdd_products (db : DB) (pid wid : Nat) (amt : Int) :
    (upsertAddStock db pid wid amt).products = db.products := by
  unfold upsertAddStock
  cases getStock db pid wid <;> rfl

theorem addTransaction_stock (db : DB) (t : TransactionRecord) :
    (addTransaction db t).product_warehouse = db.product_warehouse := rfl

theorem addTransaction_orders (db : DB) (t : TransactionRecord) :
    (addTransaction db t).orders = db.orders := rfl

theorem addTransaction_products (db : DB) (t : TransactionRecord) :
    (addTransaction db t).products = db.products := rfl

/-! Per-operation lemmas for TAKE_STOCK and TRANSFER_STOCK. -/

theorem takeStock_nonneg (db : DB) (e : Option Nat) (p : TakeStockParams)
    (h : stockNonneg db) : stockNonneg (takeStock db e p).2 := by
  unfold takeStock
  cases hp : findProduct db p.product with
  | none => simpa [hp] using h
  | some product =>
    cases hw : findWarehouse db p.warehouse with
    | none => simpa [hp, hw] using h
    | some w =>
      cases hs : getStock db product.pid w.w_id with
      | none => simpa [hp, hw, hs] using h
      | some s =>
        by_cases hlt : s < p.quantity
        · simpa [hp, hw, hs, hlt] using h
        · simp only [hp, hw, hs, hlt, if_false]
          exact stockNonneg_addTransaction _ _
            (stockNonneg_setStock db product.pid w.w_id _ h
              (by omega))

theorem transferStock_nonneg (db : DB) (e : Option Nat) (p : TransferStockParams)
    (h : stockNonneg db) (hq : 0 ≤ p.quantity) :
    stockNonneg (transferStock db e p).2 := by
  unfold transferStock
  cases hp : findProduct db p.product with
  | none => simpa [hp] using h
  | some product =>
    cases hf : findWarehouse db p.from_warehouse with
    | none => simpa [hp, hf] using h
    | some fromW =>
      cases ht : findWarehouse db p.to_warehouse with
      | none => simpa [hp, hf, ht] using h
      | some toW =>
        cases hs : getStock db product.pid fromW.w_id with
        | none => simpa [hp, hf, ht, hs] using h
        | some s =>
          by_cases hlt : s < p.quantity
          · simpa [hp, hf, ht, hs, hlt] using h
          · simp only [hp, hf, ht, hs, hlt, if_false]
            exact stockNonneg_addTransaction _ _
              (stockNonneg_upsertAdd _ product.pid toW.w_id p.quantity
                (stockNonneg_setStock db product.pid fromW.w_id _ h (by omega))
                hq)

theorem takeStock_fail_unchanged (db : DB) (e : Option Nat) (p : TakeStockParams)
    (h : (takeStock db e p).1.success = false) : (takeStock db e p).2 = db := by
  unfold takeStock at h ⊢
  cases hp : findProduct db p.product with
  | none => simp [hp]
  | some product =>
    cases hw : findWarehouse db p.warehouse with
    | none => simp [hp, hw]
    | some w =>
      cases hs : getStock db product.pid w.w_id with
      | none => simp [hp, hw, hs]
      | some s =>
        by_cases hlt : s < p.quantity
        · simp [hp, hw, hs, hlt]
        · simp [hp, hw, hs, hlt] at h

theorem transferStock_fail_unchanged (db : DB) (e : Option Nat)
    (p : TransferStockParams) (h : (transferStock db e p).1.success = false) :
    (transferStock db e p).2 = db := by
  unfold transferStock at h ⊢
  cases hp : findProduct db p.product with
  | none => simp [hp]
  | some product =>
    cases hf : findWarehouse db p.from_warehouse with
    | none => simp [hp, hf]
    | some fromW =>
      cases ht : findWarehouse db p.to_warehouse with
      | none => simp [hp, hf, ht]
      | some toW =>
        cases hs : getStock db product.pid fromW.w_id with
        | none => simp [hp, hf, ht, hs]
        | some s =>
          by_cases hlt : s < p.quantity
          · simp [hp, hf, ht, hs, hlt]
          · simp [hp, hf, ht, hs, hlt] at h

theorem stockNonneg_applyStockOps (db : DB) (e : Option Nat) (ops : List StockOp)
    (hnn : stockNonneg db) (hops : ∀ op ∈ ops, opQuantityOk op) :
    stockNonneg (applyStockOps db e ops) := by
  induction ops generalizing db with
  | nil => simpa [applyStockOps] using hnn
  | cons op t ih =>
    have hop : opQuantityOk op := hops op (List.mem_cons_self op t)
    have hstep : stockNonneg (applyStockOp db e op).2 := by
      cases op with
      | take p => exact takeStock_nonneg db e p hnn
      | transfer p => exact transferStock_nonneg db e p hnn hop
    have ht : ∀ o ∈ t, opQuantityOk o := fun o ho => hops o (List.mem_cons_of_mem op ho)
    simpa [applyStockOps] using ih (applyStockOp db e op).2 hstep ht

/-- C1 (counterexample). The claim quantifies over every TAKE_STOCK and
TRANSFER_STOCK operation, but the handlers never validate the sign of the
requested quantity: transferring -3 units of product 1 from warehouse 1
to warehouse 2 in a store with only non-negative stock succeeds and
leaves the destination row at -3. -/
theorem claim_C1_counterexample :
    stockNonneg dbA ∧
    (transferStock dbA none trNeg).1.success = true ∧
    ¬ stockNonneg (transferStock dbA none trNeg).2 := by
  refine ⟨by decide, by decide, by decide⟩

/-- C1 (amended): for every sequence of TAKE_STOCK and TRANSFER_STOCK
operations in which every TRANSFER_STOCK requests a non-negative
quantity, starting from a store with no negative stock row, no stock row
ever becomes negative; and any single operation that fails (in
particular one whose application would make a stock quantity negative)
returns success false with the store unchanged. -/
theorem claim_C1_stock_nonneg (db : DB) (e : Option Nat) (ops : List StockOp)
    (hnn : stockNonneg db) (hops : ∀ op ∈ ops, opQuantityOk op) :
    stockNonneg (applyStockOps db e ops) ∧
    (∀ (d : DB) (op : StockOp), (applyStockOp d e op).1.success = false →
      (applyStockOp d e op).2 = d) := by
  refine ⟨stockNonneg_applyStockOps db e ops hnn hops, ?_⟩
  intro d op hfail
  cases op with
  | take p => exact takeStock_fail_unchanged d e p hfail
  | transfer p => exact transferStock_fail_unchanged d e p hfail

/-- Witness for C1 at a concrete store and operation list. -/
theorem claim_C1_witness :
    stockNonneg dbA ∧ (∀ op ∈ opsA, opQuantityOk op) ∧
    stockNonneg (applyStockOps dbA none opsA) :=
  ⟨by decide, by decide,
    (claim_C1_stock_nonneg dbA none opsA (by decide) (by decide)).1⟩

theorem getStock_addTransaction (db : DB) (t : TransactionRecord)
    (pid wid : Nat) : getStock (addTransaction db t) pid wid = getStock db pid wid :=
  rfl

/-- C4: with both entities resolvable, TAKE_STOCK fails with the message
Insufficient stock and leaves the store entirely unchanged when the stock
row is absent (no row is created) or holds less than the requested
quantity; otherwise it succeeds, sets that row to the old quantity minus
the requested amount, touches no other row, and appends exactly one take
transaction with that amount. -/
theorem claim_C4_take_stock (db : DB) (e : Option Nat) (p : TakeStockParams)
    (product : Product) (w : Warehouse)
    (hp : findProduct db p.product = some product)
    (hw : findWarehouse db p.warehouse = some w) :
    (getStock db product.pid w.w_id = none →
      takeStock db e p = (fail "Insufficient stock", db)) ∧
    (∀ s, getStock db product.pid w.w_id = some s → s < p.quantity →
      takeStock db e p = (fail "Insufficient stock", db)) ∧
    (∀ s, getStock db product.pid w.w_id = some s → ¬ s < p.quantity →
      (takeStock db e p).1.success = true ∧
      getStock (takeStock db e p).2 product.pid w.w_id = some (s - p.quantity) ∧
      (∀ pid wid, ¬(pid = product.pid ∧ wid = w.w_id) →
        getStock (takeStock db e p).2 pid wid = getStock db pid wid) ∧
      (takeStock db e p).2.transactions = db.transactions ++
        [⟨p.quantity, "take", product.pid, w.w_id, none, e,
          "Took " ++ toString p.quantity ++ " units of " ++ product.p_name ++
            " from " ++ w.w_name⟩] ∧
      (takeStock db e p).2.orders = db.orders ∧
      (takeStock db e p).2.products = db.products) := by
  refine ⟨?_, ?_, ?_⟩
  · intro hs
    simp [takeStock, hp, hw, hs]
  · intro s hs hlt
    simp [takeStock, hp, hw, hs, hlt]
  · intro s hs hlt
    have hred : takeStock db e p =
        ({ success := true,
           message := "Successfully took " ++ toString p.quantity ++
             " units of " ++ product.p_name ++ " from " ++ w.w_name },
         addTransaction (setStock db product.pid w.w_id (s - p.quantity))
           { amt := p.quantity, ttype := "take", pid := product.pid,
             w_id := w.w_id, target_w_id := none, e_id := e,
             description := "Took " ++ toString p.quantity ++ " units of " ++
               product.p_name ++ " from " ++ w.w_name }) := by
      simp [takeStock, hp, hw, hs, hlt]
    rw [hred]
    refine ⟨rfl, ?_, ?_, ?_, ?_, ?_⟩
    · rw [getStock_addTransaction, getStock_setStock]
      simp [hs]
    · intro pid wid hne
      rw [getStock_addTransaction, getStock_setStock]
      simp [hne]
    · simp [addTransaction, setStock_transactions]
    · simp [addTransaction, setStock_orders]
    · simp [addTransaction, setStock_products]

/-- Witness for C4: taking 20 from a stock of 5 fails with Insufficient
stock and no change; taking 5 from 5 succeeds leaving 0 and one take
transaction. -/
theorem claim_C4_witness :
    takeStock dbA none tkTwenty = (fail "Insufficient stock", dbA) ∧
    (takeStock dbA none tkFive).1.success = true ∧
    getStock (takeStock dbA none tkFive).2 1 1 = some 0 := by
  have h20 := claim_C4_take_stock dbA none tkTwenty ⟨1, "widget", some 5, 0⟩
    ⟨1, "main"⟩ (by decide) (by decide)
  have h5 := claim_C4_take_stock dbA none tkFive ⟨1, "widget", some 5, 0⟩
    ⟨1, "main"⟩ (by decide) (by decide)
  refine ⟨h20.2.1 5 (by decide) (by decide), ?_, ?_⟩
  · exact (h5.2.2 5 (by decide) (by decide)).1
  · have := (h5.2.2 5 (by decide) (by decide)).2.1
    simpa using this

/-- C3: with the product and two distinct warehouses resolvable, a
successful TRANSFER_STOCK decreases the source row by exactly the
requested quantity, increases the destination row by exactly that
quantity (creating it with that amount when absent), touches no other
row, and appends exactly one transfer transaction carrying both warehouse
ids; a failed TRANSFER_STOCK changes no stock row and appends no
transaction. -/
theorem claim_C3_transfer_atomicity (db : DB) (e : Option Nat)
    (p : TransferStockParams) (product : Product) (fromW toW : Warehouse)
    (hp : findProduct db p.product = some product)
    (hf : findWarehouse db p.from_warehouse = some fromW)
    (ht : findWarehouse db p.to_warehouse = some toW)
    (hne : fromW.w_id ≠ toW.w_id) :
    ((transferStock db e p).1.success = true →
      ∃ s, getStock db product.pid fromW.w_id = some s ∧ p.quantity ≤ s ∧
        getStock (transferStock db e p).2 product.pid fromW.w_id =
          some (s - p.quantity) ∧
        getStock (transferStock db e p).2 product.pid toW.w_id =
          some ((getStock db product.pid toW.w_id).getD 0 + p.quantity) ∧
        (∀ pid wid, ¬(pid = product.pid ∧ wid = fromW.w_id) →
          ¬(pid = product.pid ∧ wid = toW.w_id) →
          getStock (transferStock db e p).2 pid wid = getStock db pid wid) ∧
        (transferStock db e p).2.transactions = db.transactions ++
          [⟨p.quantity, "transfer", product.pid, fromW.w_id, some toW.w_id, e,
            "Transferred " ++ toString p.quantity ++ " units of " ++
              product.p_name ++ " from " ++ fromW.w_name ++ " to " ++ toW.w_name⟩]) ∧
    ((transferStock db e p).1.success = false →
      (transferStock db e p).2.product_warehouse = db.product_warehouse ∧
      (transferStock db e p).2.transactions = db.transactions) := by
  constructor
  · intro hsucc
    cases hs : getStock db product.pid fromW.w_id with
    | none => simp [transferStock, hp, hf, ht, hs, fail] at hsucc
    | some s =>
      by_cases hlt : s < p.quantity
      · simp [transferStock, hp, hf, ht, hs, hlt, fail] at hsucc
      · refine ⟨s, rfl, by omega, ?_⟩
        have hred : transferStock db e p =
            ({ success := true,
               message := "Transferred " ++ toString p.quantity ++ " units of " ++
                 product.p_name ++ " from " ++ fromW.w_name ++ " to " ++ toW.w_name },
             addTransaction
               (upsertAddStock (setStock db product.pid fromW.w_id (s - p.quantity))
                 product.pid toW.w_id p.quantity)
               { amt := p.quantity, ttype := "transfer", pid := product.pid,
                 w_id := fromW.w_id, target_w_id := some toW.w_id, e_id := e,
                 description := "Transferred " ++ toString p.quantity ++
                   " units of " ++ product.p_name ++ " from " ++ fromW.w_name ++
                   " to " ++ toW.w_name }) := by
          simp [transferStock, hp, hf, ht, hs, hlt]
        rw [hred]
        have hne2 : toW.w_id ≠ fromW.w_id := fun hcc => hne hcc.symm
        refine ⟨?_, ?_, ?_, ?_⟩
        · rw [getStock_addTransaction, getStock_upsertAdd]
          simp [hne, getStock_setStock, hs]
        · rw [getStock_addTransaction, getStock_upsertAdd]
          simp [getStock_setStock, hne2]
        · intro pid wid hn1 hn2
          rw [getStock_addTransaction, getStock_upsertAdd]
          simp [hn1, hn2, getStock_setStock]
        · simp [addTransaction, upsertAdd_transactions, setStock_transactions]
  · intro hfailed
    have hdb := transferStock_fail_unchanged db e p hfailed
    rw [hdb]
    exact ⟨rfl, rfl⟩

/-- Witness for C3: transferring 3 of the 5 units succeeds, leaving 2 at
the source and creating the destination row at 3. -/
theorem claim_C3_witness :
    (transferStock dbA none trPos).1.success = true ∧
    getStock (transferStock dbA none trPos).2 1 1 = some 2 ∧
    getStock (transferStock dbA none trPos).2 1 2 = some 3 := by
  have h := claim_C3_transfer_atomicity dbA none trPos ⟨1, "widget", some 5, 0⟩
    ⟨1, "main"⟩ ⟨2, "east"⟩ (by decide) (by decide) (by decide) (by decide)
  have hsucc : (transferStock dbA none trPos).1.success = true := by decide
  rcases h.1 hsucc with ⟨s, hs, _, h1, h2, _, _⟩
  have hs5 : s = 5 := by
    have hss : (some s : Option Int) = some 5 := by rw [← hs]; decide
    simpa using hss
  subst hs5
  exact ⟨hsucc, h1, h2⟩

/-- C8 (counterexample). The claim requires every entity kind to try the
case-insensitive exact name match before the substring fallback, but
findSupplier has no exact stage: with suppliers ABC (id 1) and AB (id 2),
resolving the text AB returns ABC, even though a case-insensitive exact
match (AB, id 2) exists in the table. -/
theorem claim_C8_counterexample :
    findSupplier dbSup (.text "AB") = some ⟨1, "ABC"⟩ ∧
    (⟨2, "AB"⟩ : Supplier) ∈ dbSup.suppliers ∧
    lcEq (Supplier.s_name ⟨2, "AB"⟩) "AB" = true := by
  refine ⟨by decide, by decide, by decide⟩

/-- C8 (amended): numeric identifiers are primary-key lookups for all
three kinds, yielding none on absence with no fuzzy fallback; for
products and warehouses a text identifier is first matched
case-insensitively against the exact name (when any exact match exists
the result is an exact match, the first such row, so repeated resolution
of an exact-match name is stable) with the substring fallback used only
otherwise; for suppliers the text lookup is substring-only, so the result
merely contains the query and exact matches get no priority. -/
theorem claim_C8_entity_resolution (db : DB) (n : Nat) (s : String) :
    ((∀ p ∈ db.products, p.pid ≠ n) → findProduct db (.num n) = none) ∧
    ((∀ w ∈ db.warehouses, w.w_id ≠ n) → findWarehouse db (.num n) = none) ∧
    ((∀ x ∈ db.suppliers, x.sup_id ≠ n) → 0 < n → findSupplier db (.num n) = none) ∧
    ((∃ p ∈ db.products, lcEq p.p_name s = true) →
      ∃ p, findProduct db (.text s) = some p ∧ lcEq p.p_name s = true ∧
        db.products.find? (fun q => lcEq q.p_name s) = some p) ∧
    ((∃ w ∈ db.warehouses, lcEq w.w_name s = true) →
      ∃ w, findWarehouse db (.text s) = some w ∧ lcEq w.w_name s = true ∧
        db.warehouses.find? (fun q => lcEq q.w_name s) = some w) ∧
    (∀ x, findSupplier db (.text s) = some x → lcSubstr s x.s_name = true) := by
  refine ⟨?_, ?_, ?_, ?_, ?_, ?_⟩
  · intro h
    simp only [findProduct]
    rw [List.find?_eq_none]
    intro p hp
    simpa using h p hp
  · intro h
    simp only [findWarehouse]
    rw [List.find?_eq_none]
    intro w hw
    simpa using h w hw
  · intro h hn
    have hfalsy : (Ident.num n).isFalsy = false := by
      cases n with
      | zero => omega
      | succ m => rfl
    simp only [findSupplier, hfalsy, Bool.false_eq_true, if_false]
    rw [List.find?_eq_none]
    intro x hx
    simpa using h x hx
  · intro h
    cases hf : db.products.find? (fun q => lcEq q.p_name s) with
    | none =>
      exfalso
      rcases h with ⟨p, hp, hpe⟩
      have := (List.find?_eq_none.mp hf) p hp
      simp [hpe] at this
    | some p =>
      have hpa := List.find?_some hf
      exact ⟨p, by simp [findProduct, hf], by simpa using hpa, rfl⟩
  · intro h
    cases hf : db.warehouses.find? (fun q => lcEq q.w_name s) with
    | none =>
      exfalso
      rcases h with ⟨w, hw, hwe⟩
      have := (List.find?_eq_none.mp hf) w hw
      simp [hwe] at this
    | some w =>
      have hwa := List.find?_some hf
      exact ⟨w, by simp [findWarehouse, hf], by simpa using hwa, rfl⟩
  · intro x hx
    by_cases hfalsy : (Ident.text s).isFalsy
    · simp [findSupplier, hfalsy] at hx
    · simp only [findSupplier, hfalsy, Bool.false_eq_true, if_false] at hx
      have hxa := List.find?_some hx
      simpa using hxa

/-- Witness for C8 at the concrete supplier store. -/
theorem claim_C8_witness :
    findProduct dbSup (.num 99) = none ∧
    findWarehouse dbSup (.num 99) = none ∧
    findSupplier dbSup (.num 99) = none ∧
    (∃ p, findProduct dbSup (.text "WIDGET") = some p ∧
      lcEq p.p_name "WIDGET" = true ∧
      dbSup.products.find? (fun q => lcEq q.p_name "WIDGET") = some p) ∧
    (∃ w, findWarehouse dbSup (.text "MAIN") = some w ∧
      lcEq w.w_name "MAIN" = true ∧
      dbSup.warehouses.find? (fun q => lcEq q.w_name "MAIN") = some w) ∧
    lcSubstr "ab" (Supplier.s_name ⟨1, "ABC"⟩) = true := by
  have h99 := claim_C8_entity_resolution dbSup 99 ""
  have hwid := claim_C8_entity_resolution dbSup 0 "WIDGET"
  have hmain := claim_C8_entity_resolution dbSup 0 "MAIN"
  have hab := claim_C8_entity_resolution dbSup 0 "ab"
  refine ⟨h99.1 (by decide), h99.2.1 (by decide),
    h99.2.2.1 (by decide) (by decide), hwid.2.2.2.1 (by decide),
    hmain.2.2.2.2.1 (by decide), ?_⟩
  exact hab.2.2.2.2.2 ⟨1, "ABC"⟩ (by decide)

theorem lookupStatusOrder_mem (db : DB) (p : UpdateOrderStatusParams) (o : Order)
    (h : lookupStatusOrder db p = .found o) : o ∈ db.orders := by
  unfold lookupStatusOrder at h
  cases hid : jsTruthyNat p.order_id with
  | some oid =>
    simp only [hid] at h
    cases hf : db.orders.find? (fun x => x.po_id == oid) with
    | none => simp [hf] at h
    | some x =>
      simp only [hf, StatusOrderLookup.found.injEq] at h
      subst h
      exact List.mem_of_find?_eq_some hf
  | none =>
    simp only [hid] at h
    cases hps : jsTruthyStr p.product with
    | none => simp [hps] at h
    | some ps =>
      simp only [hps] at h
      split at h
      · exact StatusOrderLookup.noConfusion h
      · split at h
        · rename_i a heq
          injection h with h2
          subst h2
          have ham : a ∈ (db.orders.filter (fun x =>
              ["pending", "approved", "ordered", "shipped"].contains x.status)).filter
              (fun x => orderProductMatches db x ps) := by
            rw [heq]; exact List.mem_singleton_self a
          exact List.mem_of_mem_filter (List.mem_of_mem_filter ham)
        · exact StatusOrderLookup.noConfusion h
        · exact StatusOrderLookup.noConfusion h

/-- C9: when the order lookup (by id, or by an unambiguous product match)
finds an order and the requested status is reordered, the call succeeds,
the store gains exactly one new order, appended at the end, with status
pending and the product, supplier, warehouse, quantity and price of the
original, the original (and only it, given unique ids) is flipped to
reordered in place, and no order is deleted. -/
theorem claim_C9_reorder (db : DB) (e : Option Nat)
    (p : UpdateOrderStatusParams) (o : Order)
    (hst : p.status = "reordered")
    (hfound : lookupStatusOrder db p = .found o)
    (hfresh : poFresh db) :
    (updateOrderStatus db e p).1.success = true ∧
    (updateOrderStatus db e p).2.orders =
      (db.orders.map (fun x =>
        if x.po_id == o.po_id then { x with status := "reordered" } else x)) ++
        [⟨db.nextPoId, o.quantity, "pending", o.p_id, o.sup_id, o.target_w_id,
          o.price, e⟩] ∧
    (updateOrderStatus db e p).2.orders.length = db.orders.length + 1 := by
  have homem : o ∈ db.orders := lookupStatusOrder_mem db p o hfound
  have hlt := hfresh o homem
  have hne : (db.nextPoId == o.po_id) = false := by
    simp only [beq_eq_false_iff_ne, ne_eq]
    omega
  refine ⟨?_, ?_, ?_⟩
  · simp [updateOrderStatus, hfound, hst]
  · simp only [updateOrderStatus, hfound, hst]
    simp [List.map_append, hne]
    omega
  · simp [updateOrderStatus, hfound, hst, hne, List.map_append]

/-- Witness for C9: reordering order 1 of the small store succeeds and
grows the orders table by exactly one row. -/
theorem claim_C9_witness :
    (updateOrderStatus dbA none ⟨some 1, none, "reordered"⟩).1.success = true ∧
    (updateOrderStatus dbA none ⟨some 1, none, "reordered"⟩).2.orders.length =
      dbA.orders.length + 1 := by
  have h := claim_C9_reorder dbA none ⟨some 1, none, "reordered"⟩
    ⟨1, 5, "pending", 1, none, 1, 25, none⟩ rfl (by decide) (by decide)
  exact ⟨h.1, h.2.2⟩

/-! Lemmas about RECEIVE_ORDER. -/

theorem jsTruthyNat_pos (n : Nat) (h : 0 < n) : jsTruthyNat (some n) = some n := by
  cases n with
  | zero => omega
  | succ m => rfl

theorem find?_and_none_of_none {α : Type} (l : List α) (p q : α → Bool)
    (h : l.find? p = none) : l.find? (fun x => p x && q x) = none := by
  rw [List.find?_eq_none] at h ⊢
  intro x hx
  simp [h x hx]

theorem matchById_open (db : DB) (oid : Nat) (q : Option Int) (o : Order)
    (hoid : 0 < oid)
    (hfind : db.orders.find? (fun x => x.po_id == oid) = some o)
    (hopen : openStatuses.contains o.status = true) :
    matchReceiveOrders db ⟨some oid, none, none, q⟩ = [o] := by
  unfold matchReceiveOrders
  simp only [jsTruthyNat_pos oid hoid]
  rw [find?_and_of_find? db.orders _ _ o hfind hopen]

theorem matchById_closed (db : DB) (oid : Nat) (q : Option Int) (o : Order)
    (hoid : 0 < oid) (hu : poIdUniq db)
    (hfind : db.orders.find? (fun x => x.po_id == oid) = some o)
    (hopen : openStatuses.contains o.status = false) :
    matchReceiveOrders db ⟨some oid, none, none, q⟩ = [] := by
  unfold matchReceiveOrders
  simp only [jsTruthyNat_pos oid hoid]
  have hpo : o.po_id = oid := by
    simpa using List.find?_some hfind
  have homem : o ∈ db.orders := List.mem_of_find?_eq_some hfind
  have hnone := find?_key_and_none (fun x : Order => x.po_id) db.orders o
    (fun x => openStatuses.contains x.status) hu homem hopen
  simp only [] at hnone
  rw [hpo] at hnone
  rw [hnone]

theorem receiveOrder_fail_unchanged (db : DB) (e : Option Nat)
    (p : ReceiveOrderParams) (h : (receiveOrder db e p).1.success = false) :
    (receiveOrder db e p).2 = db := by
  unfold receiveOrder at h ⊢
  cases hm : matchReceiveOrders db p with
  | nil => simp [hm]
  | cons a t =>
    cases t with
    | nil =>
      simp only [hm] at h ⊢
      by_cases hg : a.quantity < (jsTruthyInt p.quantity).getD a.quantity
      · simp [hg]
      · simp [hg] at h
    | cons b t2 => simp [hm]

theorem receiveOrder_overflow (db : DB) (e : Option Nat)
    (p : ReceiveOrderParams) (o : Order) (q : Int)
    (hm : matchReceiveOrders db p = [o])
    (hq : jsTruthyInt p.quantity = some q)
    (hlt : o.quantity < q) :
    (receiveOrder db e p).1.success = false ∧ (receiveOrder db e p).2 = db := by
  have hgetd : (jsTruthyInt p.quantity).getD o.quantity = q := by rw [hq]; rfl
  constructor
  · simp [receiveOrder, hm, hgetd, hlt, fail]
  · simp [receiveOrder, hm, hgetd, hlt, fail]

theorem receiveOrder_success_char (db : DB) (e : Option Nat)
    (p : ReceiveOrderParams) (o : Order)
    (hm : matchReceiveOrders db p = [o])
    (hno : ¬ o.quantity < (jsTruthyInt p.quantity).getD o.quantity) :
    (receiveOrder db e p).1.success = true ∧
    (receiveOrder db e p).1.orderId = some o.po_id ∧
    (receiveOrder db e p).2.orders = db.orders.map (fun x =>
      if x.po_id == o.po_id then
        { x with
          status := if 0 < o.quantity - (jsTruthyInt p.quantity).getD o.quantity
                    then "partial" else "received",
          quantity := o.quantity - (jsTruthyInt p.quantity).getD o.quantity }
      else x) ∧
    (receiveOrder db e p).2.transactions = db.transactions ++
      [⟨(jsTruthyInt p.quantity).getD o.quantity, "receive", o.p_id, o.target_w_id,
        none, e,
        "Received " ++ toString ((jsTruthyInt p.quantity).getD o.quantity) ++
          " units from order #" ++ toString o.po_id⟩] ∧
    getStock (receiveOrder db e p).2 o.p_id o.target_w_id =
      some ((getStock db o.p_id o.target_w_id).getD 0 +
        (jsTruthyInt p.quantity).getD o.quantity) := by
  have hred := receiveOrder.eq_def db e p
  rw [hm] at hred
  simp only [if_neg hno] at hred
  rw [hred]
  refine ⟨rfl, rfl, ?_, ?_, ?_⟩
  · simp [addTransaction, upsertAdd_orders]
  · simp [addTransaction, upsertAdd_transactions]
  · rw [getStock_addTransaction]
    have hmid : getStock (upsertAddStock
        { db with orders := db.orders.map (fun x =>
            if x.po_id == o.po_id then
              { x with
                status := if 0 < o.quantity - (jsTruthyInt p.quantity).getD o.quantity
                          then "partial" else "received",
                quantity := o.quantity - (jsTruthyInt p.quantity).getD o.quantity }
            else x) }
        o.p_id o.target_w_id ((jsTruthyInt p.quantity).getD o.quantity))
        o.p_id o.target_w_id =
        some ((getStock db o.p_id o.target_w_id).getD 0 +
          (jsTruthyInt p.quantity).getD o.quantity) := by
      rw [getStock_upsertAdd]
      simp [getStock]
    simpa [getStock] using hmid

theorem receiveOrder_ordersInv (db : DB) (e : Option Nat) (p : ReceiveOrderParams)
    (h : ordersInv db) : ordersInv (receiveOrder db e p).2 := by
  cases hm : matchReceiveOrders db p with
  | nil =>
    have hunch : (receiveOrder db e p).2 = db := by simp [receiveOrder, hm]
    rw [hunch]; exact h
  | cons a t =>
    cases t with
    | cons b t2 =>
      have hunch : (receiveOrder db e p).2 = db := by simp [receiveOrder, hm]
      rw [hunch]; exact h
    | nil =>
      by_cases hg : a.quantity < (jsTruthyInt p.quantity).getD a.quantity
      · cases jsq : jsTruthyInt p.quantity with
        | none => rw [jsq] at hg; simp at hg
        | some qv =>
          have hov := receiveOrder_overflow db e p a qv hm jsq
            (by rwa [jsq] at hg)
          rw [hov.2]; exact h
      · have hc := receiveOrder_success_char db e p a hm hg
        intro o ho
        rw [hc.2.2.1] at ho
        rcases List.mem_map.mp ho with ⟨x, hx, rfl⟩
        by_cases hpo : (x.po_id == a.po_id)
        · simp only [hpo, if_true]
          by_cases hrem : 0 < a.quantity - (jsTruthyInt p.quantity).getD a.quantity
          · simp only [hrem, if_true]
            refine ⟨by omega, ?_⟩
            constructor
            · intro hcon; exact absurd hcon (by decide)
            · intro hcon; omega
          · simp only [hrem, if_false]
            refine ⟨by omega, ?_⟩
            constructor
            · intro _; omega
            · intro _; trivial
        · simp only [hpo, if_false]
          exact h x hx

theorem receiveSeq_invariant (e : Option Nat) (oid : Nat) (hoid : 0 < oid)
    (qs : List (Option Int)) :
    ∀ (db : DB) (o : Order),
      poIdUniq db →
      db.orders.find? (fun x => x.po_id == oid) = some o →
      0 ≤ o.quantity → (o.status = "received" ↔ o.quantity = 0) →
      ∃ o', (receiveSeq db e oid qs).orders.find? (fun x => x.po_id == oid) = some o' ∧
        o'.p_id = o.p_id ∧
        0 ≤ o'.quantity ∧ (o'.status = "received" ↔ o'.quantity = 0) ∧
        poIdUniq (receiveSeq db e oid qs) ∧
        ∃ rest, (receiveSeq db e oid qs).transactions = db.transactions ++ rest ∧
          (∀ t ∈ rest, t.ttype = "receive" ∧ t.pid = o.p_id) ∧
          amtSum rest = o.quantity - o'.quantity := by
  induction qs with
  | nil =>
    intro db o hu hf hq hiff
    exact ⟨o, hf, rfl, hq, hiff, hu, [], by simp [receiveSeq], by simp,
      by simp [amtSum]⟩
  | cons q qs ih =>
    intro db o hu hf hq hiff
    have hsc : receiveSeq db e oid (q :: qs) =
        receiveSeq (receiveOrder db e ⟨some oid, none, none, q⟩).2 e oid qs := rfl
    cases hopen : openStatuses.contains o.status with
    | false =>
      have hm := matchById_closed db oid q o hoid hu hf hopen
      have hfail : (receiveOrder db e ⟨some oid, none, none, q⟩).1.success = false := by
        simp [receiveOrder, hm, fail]
      have hunch := receiveOrder_fail_unchanged db e ⟨some oid, none, none, q⟩ hfail
      rw [hsc, hunch]
      exact ih db o hu hf hq hiff
    | true =>
      have hm := matchById_open db oid q o hoid hf hopen
      by_cases hg : o.quantity < (jsTruthyInt q).getD o.quantity
      · cases jsq : jsTruthyInt q with
        | none => rw [jsq] at hg; simp at hg
        | some qv =>
          have hov := receiveOrder_overflow db e ⟨some oid, none, none, q⟩ o qv hm
            (by simpa using jsq) (by rw [jsq] at hg; simpa using hg)
          rw [hsc, hov.2]
          exact ih db o hu hf hq hiff
      · have hc := receiveOrder_success_char db e ⟨some oid, none, none, q⟩ o hm hg
        have hpo : o.po_id = oid := by simpa using List.find?_some hf
        rw [hsc]
        set recv := (jsTruthyInt q).getD o.quantity with hrecv
        set d1 := (receiveOrder db e ⟨some oid, none, none, q⟩).2 with hd1
        set g : Order → Order := fun x =>
          if x.po_id == o.po_id then
            { x with
              status := if 0 < o.quantity - recv then "partial" else "received",
              quantity := o.quantity - recv }
          else x with hgdef
        have hgpo : ∀ x : Order, (g x).po_id = x.po_id := by
          intro x
          simp only [hgdef]
          by_cases hx : (x.po_id == o.po_id) = true
          · rw [if_pos hx]
          · rw [if_neg hx]
        have hd1orders : d1.orders = db.orders.map g := by
          rw [hd1]
          simpa using hc.2.2.1
        have hfind1 : d1.orders.find? (fun x => x.po_id == oid) = some (g o) := by
          rw [hd1orders]
          rw [find?_map_comm db.orders g (fun x => x.po_id == oid)
            (fun x => by simp only [hgpo])]
          rw [hf]
          rfl
        have hgo : g o = { o with
            status := if 0 < o.quantity - recv then "partial" else "received",
            quantity := o.quantity - recv } := by
          simp [hgdef]
        have hu1 : poIdUniq d1 := by
          unfold poIdUniq
          rw [hd1orders, List.pairwise_map]
          exact hu.imp (fun hxy => by simpa [hgpo] using hxy)
        have hq1 : 0 ≤ (g o).quantity := by
          rw [hgo]; simp; omega
        have hiff1 : ((g o).status = "received" ↔ (g o).quantity = 0) := by
          rw [hgo]
          by_cases hrem : 0 < o.quantity - recv
          · simp only [hrem, if_true]
            constructor
            · intro hcon; exact absurd hcon (by decide)
            · intro hcon; omega
          · simp only [hrem, if_false]
            constructor
            · intro _; omega
            · intro _; trivial
        rcases ih d1 (g o) hu1 hfind1 hq1 hiff1 with
          ⟨o', hfind2, hpid2, hq2, hiff2, hu2, rest2, htr2, hall2, hsum2⟩
        refine ⟨o', hfind2, ?_, hq2, hiff2, hu2, ?_⟩
        · rw [hpid2, hgo]
        · refine ⟨⟨recv, "receive", o.p_id, o.target_w_id, none, e,
            "Received " ++ toString recv ++ " units from order #" ++
              toString o.po_id⟩ :: rest2, ?_, ?_, ?_⟩
          · rw [htr2, hd1]
            rw [hc.2.2.2.1]
            simp
          · intro t ht
            rcases List.mem_cons.mp ht with rfl | ht2
            · exact ⟨rfl, rfl⟩
            · have hthis := hall2 t ht2
              refine ⟨hthis.1, ?_⟩
              rw [hthis.2, hgo]
          · have hgq : (g o).quantity = o.quantity - recv := by rw [hgo]
            simp only [amtSum, List.map_cons, List.sum_cons] at hsum2 ⊢
            rw [hsum2, hgq]
            ring

/-- C2 (counterexample). The claim asserts quantityReceived = quantityOrdered
exactly when the status is received, for every order at all times; but
CREATE_ORDER never validates the quantity, so ordering 0 units of an
existing product succeeds and yields a pending order with quantity 0:
received (0) equals ordered (0) while the status is pending. -/
theorem claim_C2_counterexample :
    (createOrder dbSup none coZero).1.success = true ∧
    ((createOrder dbSup none coZero).2.orders.any
      (fun o => o.quantity == 0 && o.status != "received")) = true := by
  exact ⟨by decide, by decide⟩

/-- C2 (amended): for every order with a positive ordered quantity (as a
well-formed CREATE_ORDER produces) and unique order ids, across any
sequence of RECEIVE_ORDER calls addressed to it, the remaining quantity
stays non-negative and the cumulative received amount, read off the
appended receive transactions, equals ordered minus remaining and never
exceeds the ordered quantity; a single call whose received amount exceeds
the remaining quantity fails with no mutation; a successful receipt sets
the status to partial when remainder is positive and received when it
reaches zero, with received exactly when the quantities are equal. -/
theorem claim_C2_receipt_conservation (db : DB) (e : Option Nat) (oid : Nat)
    (o₀ : Order) (qs : List (Option Int))
    (hoid : 0 < oid) (hu : poIdUniq db)
    (hfind : db.orders.find? (fun x => x.po_id == oid) = some o₀)
    (hst : o₀.status = "pending") (hq0 : 0 < o₀.quantity) :
    (∃ o', (receiveSeq db e oid qs).orders.find? (fun x => x.po_id == oid) = some o' ∧
      0 ≤ o'.quantity ∧ (o'.status = "received" ↔ o'.quantity = 0) ∧
      ∃ rest, (receiveSeq db e oid qs).transactions = db.transactions ++ rest ∧
        (∀ t ∈ rest, t.ttype = "receive" ∧ t.pid = o₀.p_id) ∧
        amtSum rest = o₀.quantity - o'.quantity ∧
        amtSum rest ≤ o₀.quantity) ∧
    (∀ (d : DB) (p : ReceiveOrderParams) (x : Order) (qv : Int),
      matchReceiveOrders d p = [x] → jsTruthyInt p.quantity = some qv →
      x.quantity < qv →
      (receiveOrder d e p).1.success = false ∧ (receiveOrder d e p).2 = d) ∧
    (∀ (d : DB) (p : ReceiveOrderParams) (x : Order),
      matchReceiveOrders d p = [x] →
      ¬ x.quantity < (jsTruthyInt p.quantity).getD x.quantity →
      (receiveOrder d e p).1.success = true ∧
      (receiveOrder d e p).2.orders = d.orders.map (fun y =>
        if y.po_id == x.po_id then
          { y with
            status := if 0 < x.quantity - (jsTruthyInt p.quantity).getD x.quantity
                      then "partial" else "received",
            quantity := x.quantity - (jsTruthyInt p.quantity).getD x.quantity }
        else y)) := by
  refine ⟨?_, ?_, ?_⟩
  · have hiff : o₀.status = "received" ↔ o₀.quantity = 0 := by
      constructor
      · intro hcon; rw [hst] at hcon; exact absurd hcon (by decide)
      · intro hcon; exact absurd hcon (by omega)
    rcases receiveSeq_invariant e oid hoid qs db o₀ hu hfind (le_of_lt hq0) hiff with
      ⟨o', h1, hpid, h2, h3, _, rest, h4, h5, h6⟩
    exact ⟨o', h1, h2, h3, rest, h4, h5, h6, by omega⟩
  · intro d p x qv hm hq hlt
    exact receiveOrder_overflow d e p x qv hm hq hlt
  · intro d p x hm hno
    have hc := receiveOrder_success_char d e p x hm hno
    exact ⟨hc.1, hc.2.2.1⟩

/-- Witness for C2: receiving 3, then the rest, of the 5-unit pending
order closes it to received with 0 remaining, and the two appended
receive transactions sum to the 5 ordered units. -/
theorem claim_C2_witness :
    (receiveSeq dbA none 1 [some 3, none]).orders.find? (fun x => x.po_id == 1) =
      some ⟨1, 0, "received", 1, none, 1, 25, none⟩ ∧
    amtSum (receiveSeq dbA none 1 [some 3, none]).transactions = 5 := by
  have h := (claim_C2_receipt_conservation dbA none 1
    ⟨1, 5, "pending", 1, none, 1, 25, none⟩ [some 3, none]
    (by decide) (by decide) (by decide) rfl (by decide)).1
  rcases h with ⟨o', h1, _, _, rest, h4, _, h6, _⟩
  have hfindc : (receiveSeq dbA none 1 [some 3, none]).orders.find?
      (fun x => x.po_id == 1) = some ⟨1, 0, "received", 1, none, 1, 25, none⟩ := by
    decide
  refine ⟨hfindc, ?_⟩
  have ho' : o' = ⟨1, 0, "received", 1, none, 1, 25, none⟩ :=
    Option.some.inj (h1.symm.trans hfindc)
  have hnil : dbA.transactions = [] := rfl
  rw [hnil] at h4
  have hrest : (receiveSeq dbA none 1 [some 3, none]).transactions = rest := by
    simpa using h4
  rw [hrest, h6, ho']
  decide

/-- C10: RECEIVE_ORDER reads its quantity parameter only through JS
truthiness, so a provided quantity of 0 behaves exactly like an absent
quantity: the whole call computes the same result and state, the received
amount defaults to the full remaining quantity of the matched order, and
the order closes to received with remaining 0. -/
theorem claim_C10_zero_quantity (db : DB) (e : Option Nat)
    (p : ReceiveOrderParams) (o : Order)
    (hm : matchReceiveOrders db p = [o])
    (hq : p.quantity = some 0) :
    (∀ (d : DB) (pp : ReceiveOrderParams),
      receiveOrder d e { pp with quantity := some 0 } =
        receiveOrder d e { pp with quantity := none }) ∧
    (receiveOrder db e p).1.success = true ∧
    (receiveOrder db e p).2.orders = db.orders.map (fun x =>
      if x.po_id == o.po_id then
        { x with status := "received", quantity := 0 } else x) ∧
    (receiveOrder db e p).2.transactions = db.transactions ++
      [⟨o.quantity, "receive", o.p_id, o.target_w_id, none, e,
        "Received " ++ toString o.quantity ++ " units from order #" ++
          toString o.po_id⟩] := by
  have hjs : jsTruthyInt p.quantity = none := by rw [hq]; rfl
  have hno : ¬ o.quantity < (jsTruthyInt p.quantity).getD o.quantity := by
    rw [hjs]
    exact lt_irrefl o.quantity
  have hc := receiveOrder_success_char db e p o hm hno
  simp only [hjs, Option.getD_none, sub_self, lt_self_iff_false, if_false] at hc
  refine ⟨?_, hc.1, hc.2.2.1, hc.2.2.2.1⟩
  intro d pp
  cases pp
  rfl

/-- Witness for C10: receiving order 1 with quantity 0 succeeds and
closes it to received. -/
theorem claim_C10_witness :
    (receiveOrder dbA none ⟨some 1, none, none, some 0⟩).1.success = true ∧
    (receiveOrder dbA none ⟨some 1, none, none, some 0⟩).2.orders =
      dbA.orders.map (fun x => if x.po_id == 1 then
        { x with status := "received", quantity := 0 } else x) := by
  have h := claim_C10_zero_quantity dbA none ⟨some 1, none, none, some 0⟩
    ⟨1, 5, "pending", 1, none, 1, 25, none⟩ (by decide) rfl
  exact ⟨h.2.1, h.2.2.1⟩

/-- C5 (counterexample). The claim says the open-order set is filtered by
warehouse id when a warehouse is given; but the code applies the
warehouse filter only to a nonempty product-filtered set, so with a
resolvable warehouse and no product the match set is always empty: here
exactly one open order targets warehouse 1, yet RECEIVE_ORDER with only
that warehouse fails with zero matches instead of proceeding. -/
theorem claim_C5_counterexample :
    (dbA.orders.filter (fun o => openStatuses.contains o.status)).length = 1 ∧
    findWarehouse dbA (.num 1) = some ⟨1, "main"⟩ ∧
    ((dbA.orders.filter (fun o => openStatuses.contains o.status)).filter
      (fun o => o.target_w_id == 1)).length = 1 ∧
    (receiveOrder dbA none ⟨none, none, some (.num 1), none⟩).1.success = false ∧
    (receiveOrder dbA none ⟨none, none, some (.num 1), none⟩).2 = dbA := by
  refine ⟨by decide, by decide, by decide, by decide, by decide⟩

/-- C5 (amended): without an order id, the match set is all open orders
when neither product nor warehouse is given; it is empty whenever a
warehouse is given without a product (the warehouse filter only narrows
the product-filtered set); with a product it is the product-filtered open
set, narrowed by warehouse when one resolves, tightened to exact quantity
matches when any exist. The outcomes are exactly: zero matches fail with
the message naming the filters tried and no mutation; several matches
fail carrying at most five candidates and no mutation; exactly one match
proceeds to the receipt (succeeding, or failing without mutation only on
over-receipt). -/
theorem claim_C5_receive_matching (db : DB) (e : Option Nat)
    (p : ReceiveOrderParams) (hid : jsTruthyNat p.order_id = none) :
    (jsTruthyStr p.product = none → identParam p.warehouse = none →
      matchReceiveOrders db p =
        db.orders.filter (fun o => openStatuses.contains o.status)) ∧
    (jsTruthyStr p.product = none → identParam p.warehouse ≠ none →
      matchReceiveOrders db p = []) ∧
    (∀ ps, jsTruthyStr p.product = some ps →
      matchReceiveOrders db p =
        (let opens := db.orders.filter (fun o => openStatuses.contains o.status)
         let m1 := opens.filter (fun o => orderProductMatches db o ps)
         let m2 :=
           match identParam p.warehouse with
           | some wi =>
             if 0 < m1.length then
               match findWarehouse db wi with
               | some w => m1.filter (fun o => o.target_w_id == w.w_id)
               | none => m1
             else m1
           | none => m1
         match jsTruthyInt p.quantity with
         | some qv =>
           if 0 < m2.length then
             if 0 < (m2.filter (fun o => o.quantity == qv)).length then
               m2.filter (fun o => o.quantity == qv)
             else m2
           else m2
         | none => m2)) ∧
    (matchReceiveOrders db p = [] →
      (receiveOrder db e p).1.success = false ∧ (receiveOrder db e p).2 = db ∧
      (receiveOrder db e p).1.message = receiveNoMatchMsg p) ∧
    (1 < (matchReceiveOrders db p).length →
      (receiveOrder db e p).1.success = false ∧ (receiveOrder db e p).2 = db ∧
      (receiveOrder db e p).1.pendingOrders = (matchReceiveOrders db p).take 5 ∧
      (receiveOrder db e p).1.pendingOrders.length ≤ 5) ∧
    (∀ o, matchReceiveOrders db p = [o] →
      (¬ o.quantity < (jsTruthyInt p.quantity).getD o.quantity →
        (receiveOrder db e p).1.success = true ∧
        (receiveOrder db e p).1.orderId = some o.po_id) ∧
      (∀ qv, jsTruthyInt p.quantity = some qv → o.quantity < qv →
        (receiveOrder db e p).1.success = false ∧
        (receiveOrder db e p).2 = db)) := by
  refine ⟨?_, ?_, ?_, ?_, ?_, ?_⟩
  · intro hps hwi
    unfold matchReceiveOrders
    simp only [hid, hps, hwi]
    by_cases hlen : ((db.orders.filter
        (fun o => openStatuses.contains o.status)).length == 0) = true
    · rw [if_pos hlen]
      exact (List.length_eq_zero.mp (by simpa using hlen)).symm
    · rw [if_neg hlen]
      cases jsTruthyInt p.quantity <;> simp
  · intro hps hwi
    unfold matchReceiveOrders
    simp only [hid, hps]
    cases hwc : identParam p.warehouse with
    | none => exact absurd hwc hwi
    | some wi =>
      by_cases hlen : ((db.orders.filter
          (fun o => openStatuses.contains o.status)).length == 0) = true
      · rw [if_pos hlen]
      · rw [if_neg hlen]
        cases jsTruthyInt p.quantity <;> simp
  · intro ps hps
    unfold matchReceiveOrders
    simp only [hid, hps]
    by_cases hlen : ((db.orders.filter
        (fun o => openStatuses.contains o.status)).length == 0) = true
    · rw [if_pos hlen]
      have hempty : db.orders.filter (fun o => openStatuses.contains o.status) = [] :=
        List.length_eq_zero.mp (by simpa using hlen)
      rw [hempty]
      simp only [List.filter_nil]
      cases identParam p.warehouse with
      | none => cases jsTruthyInt p.quantity <;> simp
      | some wi => cases jsTruthyInt p.quantity <;> simp
    · rw [if_neg hlen]
      cases identParam p.warehouse with
      | none => cases jsTruthyInt p.quantity <;> simp
      | some wi =>
        cases findWarehouse db wi with
        | none => cases jsTruthyInt p.quantity <;> simp
        | some w => cases jsTruthyInt p.quantity <;> simp
  · intro hm
    refine ⟨?_, ?_, ?_⟩ <;> simp [receiveOrder, hm, fail]
  · intro hlong
    cases hm : matchReceiveOrders db p with
    | nil => rw [hm] at hlong; simp at hlong
    | cons a t =>
      cases t with
      | nil => rw [hm] at hlong; simp at hlong
      | cons b t2 =>
        refine ⟨?_, ?_, ?_, ?_⟩
        · simp [receiveOrder, hm]
        · simp [receiveOrder, hm]
        · simp [receiveOrder, hm]
        · simp only [receiveOrder, hm]
          simp [List.length_take]
  · intro o hm
    constructor
    · intro hno
      have hc := receiveOrder_success_char db e p o hm hno
      exact ⟨hc.1, hc.2.1⟩
    · intro qv hq hlt
      exact receiveOrder_overflow db e p o qv hm hq hlt

/-- Witness for C5: with no filters at all, the single open order is the
fallback match and the receipt proceeds and succeeds. -/
theorem claim_C5_witness :
    matchReceiveOrders dbA ⟨none, none, none, none⟩ =
      dbA.orders.filter (fun o => openStatuses.contains o.status) ∧
    (receiveOrder dbA none ⟨none, none, none, none⟩).1.success = true ∧
    (receiveOrder dbA none ⟨none, none, none, none⟩).1.orderId = some 1 := by
  have h := claim_C5_receive_matching dbA none ⟨none, none, none, none⟩ rfl
  have hall := h.1 rfl rfl
  have hone := (h.2.2.2.2.2 ⟨1, 5, "pending", 1, none, 1, 25, none⟩ (by decide)).1
    (by decide)
  exact ⟨hall, hone.1, hone.2⟩

/-! Lemmas about the stock-location sort of MOVE_PRODUCT. -/

theorem mem_insertByStockDesc (r x : StockRecord) (l : List StockRecord) :
    x ∈ insertByStockDesc r l ↔ x = r ∨ x ∈ l := by
  induction l with
  | nil => simp [insertByStockDesc]
  | cons a t ih =>
    unfold insertByStockDesc
    by_cases hc : a.stock < r.stock
    · rw [if_pos hc]
      simp [List.mem_cons]
    · rw [if_neg hc]
      simp only [List.mem_cons, ih]
      tauto

theorem mem_sortByStockDesc (x : StockRecord) (l : List StockRecord) :
    x ∈ sortByStockDesc l ↔ x ∈ l := by
  induction l with
  | nil => simp [sortByStockDesc]
  | cons a t ih =>
    unfold sortByStockDesc
    rw [mem_insertByStockDesc]
    simp [ih]

theorem pairwise_insertByStockDesc (r : StockRecord) (l : List StockRecord)
    (h : l.Pairwise (fun a b => b.stock ≤ a.stock)) :
    (insertByStockDesc r l).Pairwise (fun a b => b.stock ≤ a.stock) := by
  induction l with
  | nil => simp [insertByStockDesc]
  | cons a t ih =>
    rcases List.pairwise_cons.mp h with ⟨ha, ht⟩
    unfold insertByStockDesc
    by_cases hc : a.stock < r.stock
    · rw [if_pos hc]
      refine List.pairwise_cons.mpr ⟨?_, h⟩
      intro y hy
      rcases List.mem_cons.mp hy with rfl | hyt
      · omega
      · have := ha y hyt
        omega
    · rw [if_neg hc]
      refine List.pairwise_cons.mpr ⟨?_, ih ht⟩
      intro y hy
      rcases (mem_insertByStockDesc r y t).mp hy with rfl | hyt
      · omega
      · exact ha y hyt

theorem pairwise_sortByStockDesc (l : List StockRecord) :
    (sortByStockDesc l).Pairwise (fun a b => b.stock ≤ a.stock) := by
  induction l with
  | nil => simp [sortByStockDesc]
  | cons a t ih => exact pairwise_insertByStockDesc a _ ih

theorem find?_exists_of_mem {α : Type} (l : List α) (p : α → Bool) (a : α)
    (ha : a ∈ l) (hpa : p a = true) :
    ∃ b, l.find? p = some b ∧ p b = true := by
  induction l with
  | nil => simp at ha
  | cons x t ih =>
    by_cases hx : p x
    · exact ⟨x, by simp [List.find?_cons, hx], hx⟩
    · rcases List.mem_cons.mp ha with rfl | hat
      · exact absurd hpa (by simpa using hx)
      · rcases ih hat with ⟨b, hb, hpb⟩
        exact ⟨b, by simp [List.find?_cons, hx, hb], hpb⟩

theorem find?_key2_of_mem {α : Type} (k1 k2 : α → Nat) (l : List α) (a : α)
    (hu : l.Pairwise (fun x y => k1 x ≠ k1 y ∨ k2 x ≠ k2 y)) (ha : a ∈ l) :
    l.find? (fun x => k1 x == k1 a && k2 x == k2 a) = some a := by
  induction l with
  | nil => simp at ha
  | cons b t ih =>
    rcases List.pairwise_cons.mp hu with ⟨hb, ht⟩
    rcases List.mem_cons.mp ha with rfl | hat
    · simp [List.find?_cons]
    · have hne := hb a hat
      have hcond : ((k1 b == k1 a) && (k2 b == k2 a)) = false := by
        rcases hne with h1 | h2
        · simp [h1]
        · simp [h2]
      simp only [List.find?_cons, hcond]
      exact ih ht hat

theorem getStock_of_mem_uniq (db : DB) (r : StockRecord)
    (hu : stockKeyUniq db) (hr : r ∈ db.product_warehouse) :
    getStock db r.pid r.w_id = some r.stock := by
  unfold getStock
  have h := find?_key2_of_mem (fun x : StockRecord => x.pid)
    (fun x : StockRecord => x.w_id) db.product_warehouse r hu hr
  simp only [] at h
  rw [h]
  rfl

theorem findWarehouse_mem (db : DB) (i : Ident) (w : Warehouse)
    (h : findWarehouse db i = some w) : w ∈ db.warehouses := by
  cases i with
  | num n =>
    simp only [findWarehouse] at h
    exact List.mem_of_find?_eq_some h
  | text s =>
    simp only [findWarehouse] at h
    cases hf : db.warehouses.find? (fun x => lcEq x.w_name s) with
    | some x =>
      rw [hf] at h
      simp only [Option.some.injEq] at h
      exact h ▸ List.mem_of_find?_eq_some hf
    | none =>
      rw [hf] at h
      exact List.mem_of_find?_eq_some h

/-- C6: with a resolvable product and destination and no source given
(under the foreign-key and unique-key discipline of the stock table), the
quantity defaults to 1 when unspecified; when no stock row of the product
reaches the requested quantity the call fails, enumerating the nonzero
stock locations; when every sufficient row is at the destination the call
fails with Product is already in the destination; otherwise the source is
the first non-destination row of the sort by stock descending, hence a
highest-stock non-destination sufficient location, and the movement then
behaves as TRANSFER_STOCK: source decremented by the quantity,
destination upsert-incremented by it, one transfer transaction carrying
both warehouse ids, and no other stock row touched. -/
theorem claim_C6_move_auto_source (db : DB) (e : Option Nat)
    (p : MoveProductParams) (product : Product) (toW : Warehouse)
    (hp : findProduct db p.product = some product)
    (ht : findWarehouse db p.to_warehouse = some toW)
    (hfrom : p.from_warehouse = none)
    (hfk : ∀ r ∈ db.product_warehouse, ∃ w ∈ db.warehouses, w.w_id = r.w_id)
    (hu : stockKeyUniq db) :
    (p.quantity = none → (jsTruthyInt p.quantity).getD 1 = 1) ∧
    (sortByStockDesc (db.product_warehouse.filter (fun r =>
        r.pid == product.pid && (jsTruthyInt p.quantity).getD 1 ≤ r.stock)) = [] →
      moveProduct db e p =
        (fail ("Could not find sufficient stock of " ++ product.p_name ++
          ". Current locations: " ++ locationsMsg db (db.product_warehouse.filter
            (fun r => r.pid == product.pid && 0 < r.stock))), db)) ∧
    (∀ l0 ls, sortByStockDesc (db.product_warehouse.filter (fun r =>
        r.pid == product.pid && (jsTruthyInt p.quantity).getD 1 ≤ r.stock)) = l0 :: ls →
      (∀ l ∈ l0 :: ls, l.w_id = toW.w_id) →
      moveProduct db e p = (fail ("Product is already in " ++ toW.w_name), db)) ∧
    (∀ lsrc, (sortByStockDesc (db.product_warehouse.filter (fun r =>
        r.pid == product.pid && (jsTruthyInt p.quantity).getD 1 ≤ r.stock))).find?
          (fun l => l.w_id != toW.w_id) = some lsrc →
      (∀ l ∈ sortByStockDesc (db.product_warehouse.filter (fun r =>
          r.pid == product.pid && (jsTruthyInt p.quantity).getD 1 ≤ r.stock)),
        l.w_id ≠ toW.w_id → l.stock ≤ lsrc.stock) ∧
      (moveProduct db e p).1.success = true ∧
      getStock (moveProduct db e p).2 product.pid lsrc.w_id =
        some (lsrc.stock - (jsTruthyInt p.quantity).getD 1) ∧
      getStock (moveProduct db e p).2 product.pid toW.w_id =
        some ((getStock db product.pid toW.w_id).getD 0 +
          (jsTruthyInt p.quantity).getD 1) ∧
      (∀ pid wid, ¬(pid = product.pid ∧ wid = lsrc.w_id) →
        ¬(pid = product.pid ∧ wid = toW.w_id) →
        getStock (moveProduct db e p).2 pid wid = getStock db pid wid) ∧
      ∃ fromName, (moveProduct db e p).2.transactions = db.transactions ++
        [⟨(jsTruthyInt p.quantity).getD 1, "transfer", product.pid, lsrc.w_id,
          some toW.w_id, e,
          "Moved " ++ toString ((jsTruthyInt p.quantity).getD 1) ++ " units of " ++
            product.p_name ++ " from " ++ fromName ++ " to " ++ toW.w_name⟩]) := by
  have hfromident : identParam p.from_warehouse = none := by
    rw [hfrom]
    rfl
  refine ⟨?_, ?_, ?_, ?_⟩
  · intro hq
    rw [hq]
    rfl
  · intro hlocs
    simp [moveProduct, hp, ht, hfromident, hlocs]
  · intro l0 ls hlocs hall
    have hfindnone : (l0 :: ls).find? (fun l => l.w_id != toW.w_id) = none := by
      rw [List.find?_eq_none]
      intro x hx
      simp [hall x hx]
    have hl0 : l0.w_id = toW.w_id := hall l0 (List.mem_cons_self _ _)
    have htoWmem := findWarehouse_mem db p.to_warehouse toW ht
    obtain ⟨w, hwfind, hwpred⟩ := find?_exists_of_mem db.warehouses
      (fun x => x.w_id == l0.w_id) toW htoWmem (by simp [hl0])
    have hweq : (w.w_id == toW.w_id) = true := by
      have hwid : w.w_id = l0.w_id := by simpa using hwpred
      simp [hwid, hl0]
    simp [moveProduct, hp, ht, hfromident, hlocs, hfindnone, hwfind, hweq]
  · intro lsrc hfind
    have hlmem : lsrc ∈ sortByStockDesc (db.product_warehouse.filter (fun r =>
        r.pid == product.pid && (jsTruthyInt p.quantity).getD 1 ≤ r.stock)) :=
      List.mem_of_find?_eq_some hfind
    have hlf := (mem_sortByStockDesc _ _).mp hlmem
    rcases List.mem_filter.mp hlf with ⟨hlmem0, hlpred⟩
    have hlpid : lsrc.pid = product.pid := by
      have hh := Bool.and_elim_left hlpred
      simpa using hh
    have hlq : (jsTruthyInt p.quantity).getD 1 ≤ lsrc.stock := by
      have hh := Bool.and_elim_right hlpred
      simpa using hh
    have hlne : lsrc.w_id ≠ toW.w_id := by
      have hh := List.find?_some hfind
      simpa using hh
    constructor
    · intro l hl hlw
      rcases find?_some_split _ _ _ hfind with ⟨l1, l2, hsplit, hl1, _⟩
      have hsorted := pairwise_sortByStockDesc (db.product_warehouse.filter (fun r =>
        r.pid == product.pid && (jsTruthyInt p.quantity).getD 1 ≤ r.stock))
      rw [hsplit] at hsorted hl
      rcases List.mem_append.mp hl with hmem1 | hmem2
      · have hh := hl1 l hmem1
        simp at hh
        exact absurd hh hlw
      · rcases List.mem_cons.mp hmem2 with rfl | hmem3
        · exact le_refl _
        · rcases List.pairwise_append.mp hsorted with ⟨_, hpair2, _⟩
          exact (List.pairwise_cons.mp hpair2).1 l hmem3
    · rcases hfk lsrc hlmem0 with ⟨w0, hw0mem, hw0id⟩
      obtain ⟨w, hwfind, hwpred⟩ := find?_exists_of_mem db.warehouses
        (fun x => x.w_id == lsrc.w_id) w0 hw0mem (by simp [hw0id])
      have hwid : w.w_id = lsrc.w_id := by simpa using hwpred
      have hwne : (w.w_id == toW.w_id) = false := by simp [hwid, hlne]
      have hsrc : getStock db product.pid w.w_id = some lsrc.stock := by
        rw [hwid, ← hlpid]
        exact getStock_of_mem_uniq db lsrc hu hlmem0
      have hguard : ¬ lsrc.stock < (jsTruthyInt p.quantity).getD 1 := by omega
      cases hlocs : sortByStockDesc (db.product_warehouse.filter (fun r =>
          r.pid == product.pid && (jsTruthyInt p.quantity).getD 1 ≤ r.stock)) with
      | nil =>
        rw [hlocs] at hfind
        simp at hfind
      | cons l0 ls =>
        rw [hlocs] at hfind
        have hred : moveProduct db e p =
            ({ success := true,
               message := "Moved " ++ toString ((jsTruthyInt p.quantity).getD 1) ++
                 " units of " ++ product.p_name ++ " from " ++ w.w_name ++
                 " to " ++ toW.w_name },
             addTransaction
               (upsertAddStock (setStock db product.pid w.w_id
                   (lsrc.stock - (jsTruthyInt p.quantity).getD 1))
                 product.pid toW.w_id ((jsTruthyInt p.quantity).getD 1))
               { amt := (jsTruthyInt p.quantity).getD 1, ttype := "transfer",
                 pid := product.pid, w_id := w.w_id, target_w_id := some toW.w_id,
                 e_id := e,
                 description := "Moved " ++ toString ((jsTruthyInt p.quantity).getD 1) ++
                   " units of " ++ product.p_name ++ " from " ++ w.w_name ++
                   " to " ++ toW.w_name }) := by
          simp [moveProduct, hp, ht, hfromident, hlocs, hfind, hwfind, hwne,
            hsrc, hguard]
        rw [hred]
        have hne2 : toW.w_id ≠ lsrc.w_id := fun hcc => hlne hcc.symm
        refine ⟨rfl, ?_, ?_, ?_, ?_⟩
        · rw [getStock_addTransaction, getStock_upsertAdd]
          have hk : ¬ (product.pid = product.pid ∧ lsrc.w_id = toW.w_id) := by
            intro hcc; exact hlne hcc.2
          rw [if_neg hk, hwid, getStock_setStock]
          simp only [and_self, if_true]
          rw [← hwid, hsrc]
          rfl
        · rw [getStock_addTransaction, getStock_upsertAdd]
          simp only [and_self, if_true]
          rw [hwid, getStock_setStock]
          have hk : ¬ (product.pid = product.pid ∧ toW.w_id = lsrc.w_id) := by
            intro hcc; exact hne2 hcc.2
          rw [if_neg hk]
        · intro pid wid hn1 hn2
          rw [getStock_addTransaction, getStock_upsertAdd]
          rw [if_neg hn2, hwid, getStock_setStock, if_neg hn1]
        · exact ⟨w.w_name, by
            rw [hwid]
            simp [addTransaction, upsertAdd_transactions, setStock_transactions]⟩

/-- Witness for C6: moving bolt to east with no source and no quantity
auto-selects west (stock 8), defaults the quantity to 1, and leaves west
at 7 and east at 1. -/
theorem claim_C6_witness :
    (moveProduct dbB none mvB).1.success = true ∧
    getStock (moveProduct dbB none mvB).2 1 1 = some 7 ∧
    getStock (moveProduct dbB none mvB).2 1 2 = some 1 := by
  have h := claim_C6_move_auto_source dbB none mvB ⟨1, "bolt", some 2, 0⟩
    ⟨2, "east"⟩ (by decide) (by decide) rfl (by decide) (by decide)
  have h4 := h.2.2.2 ⟨1, 1, 8⟩ (by decide)
  exact ⟨h4.2.1, h4.2.2.1, h4.2.2.2.1⟩

/-- C7: with a resolvable warehouse and a supplier that is absent or
resolves, product resolution is strict-exact (findProductExact). On a
miss with no similar candidates: a parseable unit price auto-creates the
product with that price and proceeds; an absent or unparseable unit price
fails with no product created and no state change. On a hit: a parseable
unit price that differs from the stored price updates the stored price;
with no parseable price the stored price (or 0) is used. Every created
order is appended with status pending and total price = unit price times
quantity, and the response signals requiresBillUpload. -/
theorem claim_C7_create_order (db : DB) (e : Option Nat) (p : CreateOrderParams)
    (wi : Ident) (warehouse : Warehouse) (s? : Option Supplier)
    (hwi : identParam p.warehouse = some wi)
    (hw : findWarehouse db wi = some warehouse)
    (hsup : resolveSupplierParam db p.supplier = some s?) :
    (findProductExact db (.text p.product) = none →
      findSimilarProducts db p.product = [] →
      ∀ up, parsedUnitPrice p.unit_price = some up →
      (createOrder db e p).1.success = true ∧
      (createOrder db e p).2.products =
        db.products ++ [⟨db.nextPid, p.product, some up, 0⟩] ∧
      (createOrder db e p).2.orders = db.orders ++
        [⟨db.nextPoId, p.quantity, "pending", db.nextPid,
          s?.map (fun s => s.sup_id), warehouse.w_id, up * (p.quantity : Rat), e⟩] ∧
      (createOrder db e p).1.requiresBillUpload = some true) ∧
    (findProductExact db (.text p.product) = none →
      findSimilarProducts db p.product = [] →
      parsedUnitPrice p.unit_price = none →
      (createOrder db e p).1.success = false ∧ (createOrder db e p).2 = db) ∧
    (∀ P, findProductExact db (.text p.product) = some P →
      ∀ up, parsedUnitPrice p.unit_price = some up → P.unit_price ≠ some up →
      (createOrder db e p).1.success = true ∧
      (createOrder db e p).2.products = db.products.map (fun pr =>
        if pr.pid == P.pid then { pr with unit_price := some up } else pr) ∧
      (createOrder db e p).2.orders = db.orders ++
        [⟨db.nextPoId, p.quantity, "pending", P.pid,
          s?.map (fun s => s.sup_id), warehouse.w_id, up * (p.quantity : Rat), e⟩] ∧
      (createOrder db e p).1.requiresBillUpload = some true) ∧
    (∀ P, findProductExact db (.text p.product) = some P →
      parsedUnitPrice p.unit_price = none →
      (createOrder db e p).1.success = true ∧
      (createOrder db e p).2.products = db.products ∧
      (createOrder db e p).2.orders = db.orders ++
        [⟨db.nextPoId, p.quantity, "pending", P.pid,
          s?.map (fun s => s.sup_id), warehouse.w_id,
          (P.unit_price.getD 0) * (p.quantity : Rat), e⟩] ∧
      (createOrder db e p).1.requiresBillUpload = some true) ∧
    (∀ P, findProductExact db (.text p.product) = some P →
      ∀ up, parsedUnitPrice p.unit_price = some up → P.unit_price = some up →
      (createOrder db e p).1.success = true ∧
      (createOrder db e p).2.products = db.products ∧
      (createOrder db e p).2.orders = db.orders ++
        [⟨db.nextPoId, p.quantity, "pending", P.pid,
          s?.map (fun s => s.sup_id), warehouse.w_id, up * (p.quantity : Rat), e⟩] ∧
      (createOrder db e p).1.requiresBillUpload = some true) := by
  refine ⟨?_, ?_, ?_, ?_, ?_⟩
  · intro hprod hsim up hup
    have hred : createOrder db e p = createOrderFinish
        { db with
          products := db.products ++ [⟨db.nextPid, p.product, some up, 0⟩],
          nextPid := db.nextPid + 1 } e p.quantity warehouse s?
        ⟨db.nextPid, p.product, some up, 0⟩ (some up) := by
      simp [createOrder, hwi, hw, hsup, hprod, hsim, hup]
    rw [hred]
    simp [createOrderFinish]
  · intro hprod hsim hup
    constructor
    · simp [createOrder, hwi, hw, hsup, hprod, hsim, hup, fail]
    · simp [createOrder, hwi, hw, hsup, hprod, hsim, hup, fail]
  · intro P hprod up hup hne
    have hred : createOrder db e p =
        createOrderFinish db e p.quantity warehouse s? P (some up) := by
      simp [createOrder, hwi, hw, hsup, hprod, hup]
    rw [hred]
    simp [createOrderFinish, hne]
  · intro P hprod hup
    have hred : createOrder db e p =
        createOrderFinish db e p.quantity warehouse s? P none := by
      simp [createOrder, hwi, hw, hsup, hprod, hup]
    rw [hred]
    simp [createOrderFinish]
  · intro P hprod up hup heq
    have hred : createOrder db e p =
        createOrderFinish db e p.quantity warehouse s? P (some up) := by
      simp [createOrder, hwi, hw, hsup, hprod, hup]
    rw [hred]
    simp [createOrderFinish, heq]

/-- Witness for C7: ordering 5 unknown newgadget units at price 20 into
east auto-creates the product at price 20 and appends a pending order
with total price 100 and a bill-upload signal; ordering 4 bolts at the
already-stored price 2 leaves the products untouched and appends a
pending order with total price 8 and a bill-upload signal. -/
theorem claim_C7_witness :
    (createOrder dbB none
      ⟨"newgadget", 5, some (.text "east"), none, some (some 20)⟩).1.success = true ∧
    (createOrder dbB none
      ⟨"newgadget", 5, some (.text "east"), none, some (some 20)⟩).2.products =
      dbB.products ++ [⟨2, "newgadget", some 20, 0⟩] ∧
    (createOrder dbB none
      ⟨"newgadget", 5, some (.text "east"), none, some (some 20)⟩).2.orders =
      dbB.orders ++ [⟨1, 5, "pending", 2, none, 2, 100, none⟩] ∧
    (createOrder dbB none
      ⟨"newgadget", 5, some (.text "east"), none,
        some (some 20)⟩).1.requiresBillUpload = some true ∧
    (createOrder dbB none
      ⟨"bolt", 4, some (.text "west"), none, some (some 2)⟩).1.success = true ∧
    (createOrder dbB none
      ⟨"bolt", 4, some (.text "west"), none, some (some 2)⟩).2.products =
      dbB.products ∧
    (createOrder dbB none
      ⟨"bolt", 4, some (.text "west"), none, some (some 2)⟩).2.orders =
      dbB.orders ++ [⟨1, 4, "pending", 1, none, 1, 8, none⟩] ∧
    (createOrder dbB none
      ⟨"bolt", 4, some (.text "west"), none,
        some (some 2)⟩).1.requiresBillUpload = some true := by
  have h := (claim_C7_create_order dbB none
    ⟨"newgadget", 5, some (.text "east"), none, some (some 20)⟩
    (.text "east") ⟨2, "east"⟩ none rfl (by decide) rfl).1
    (by decide) (by decide) 20 rfl
  have h5 := (claim_C7_create_order dbB none
    ⟨"bolt", 4, some (.text "west"), none, some (some 2)⟩
    (.text "west") ⟨1, "west"⟩ none rfl (by decide) rfl).2.2.2.2
    ⟨1, "bolt", some 2, 0⟩ (by decide) 2 rfl rfl
  refine ⟨h.1, h.2.1, ?_, h.2.2.2, h5.1, h5.2.1, ?_, h5.2.2.2⟩
  · have h2 := h.2.2.1
    have hq : (20 : Rat) * ((5 : Int) : Rat) = 100 := by norm_num
    rw [hq] at h2
    exact h2
  · have h2 := h5.2.2.1
    have hq : (2 : Rat) * ((4 : Int) : Rat) = 8 := by norm_num
    rw [hq] at h2
    exact h2

end NlpInventory
